import Mathlib

/-! # AliHLTArray.h: bounds-checked array handles

A shallow embedding of `code/CATracker/AliHLTArray.h`.

Modelling conventions.

* A C++ `int` is a Lean `Int`.  Signed overflow is undefined behaviour in C++, so the
  source gives a meaning only to the executions in which every intermediate value fits
  an `int`; on those the unbounded arithmetic used here computes the same numbers.
* A pointer `T *` is the position of the element it points at, counted in elements of
  `T` (an `Int`); the null pointer is `0` and `p + x` advances by `x` elements.  A
  reference `T &` returned by an accessor is modelled by the position of the element
  referred to.
* The header is compiled in one of several configurations, chosen by the preprocessor
  symbols `ENABLE_ARRAY_BOUNDS_CHECKING` and `NDEBUG`; a value of `Build` records them
  and is passed to every function whose text depends on them.
* A failed `assert` aborts the process: functions that can reach one return an
  `Option`, where `none` is the abort.
* A member that a constructor leaves uninitialised keeps whatever the storage held;
  constructors therefore take the prior content of the object as an argument `raw`.
-/

set_option autoImplicit false

namespace AliHLT

/-- The preprocessor configuration the header is compiled under. -/
structure Build where
  /-- Whether `ENABLE_ARRAY_BOUNDS_CHECKING` is defined. -/
  ENABLE_ARRAY_BOUNDS_CHECKING : Bool
  /-- Whether `NDEBUG` is defined, which turns every `assert` into nothing. -/
  NDEBUG : Bool
deriving DecidableEq, Repr

/-- A pointer to an element: its position counted in elements, `0` being null. -/
abbrev Ptr := Int

namespace AliHLTInternal

/-- The class `ArrayBoundsCheck`: the inclusive window `[fStart, fEnd]`.  In a build
without bounds checking the class has no members; the two fields are then carried
along untouched and never read. -/
structure ArrayBoundsCheck where
  fStart : Int
  fEnd : Int
deriving DecidableEq, Repr

namespace ArrayBoundsCheck

/-- The member `IsInBounds( int x )`.  Without checking it is `return true`.  With
checking it is `assert( x >= fStart ); assert( x <= fEnd );
return ( x >= fStart && x <= fEnd );`. -/
def IsInBounds (B : Build) (self : ArrayBoundsCheck) (x : Int) : Option Bool :=
  if B.ENABLE_ARRAY_BOUNDS_CHECKING then
    if !B.NDEBUG && !decide (x ≥ self.fStart) then none
    else if !B.NDEBUG && !decide (x ≤ self.fEnd) then none
    else some (decide (x ≥ self.fStart) && decide (x ≤ self.fEnd))
  else some true

/-- The member `SetBounds( int start, int end )`: `fStart = start; fEnd = end;` with
checking, an empty body without. -/
def SetBounds (B : Build) (self : ArrayBoundsCheck) (start endv : Int) : ArrayBoundsCheck :=
  if B.ENABLE_ARRAY_BOUNDS_CHECKING then { fStart := start, fEnd := endv } else self

/-- The member `MoveBounds( int d )`: `fStart += d; fEnd += d;` with checking, an empty
body without. -/
def MoveBounds (B : Build) (self : ArrayBoundsCheck) (d : Int) : ArrayBoundsCheck :=
  if B.ENABLE_ARRAY_BOUNDS_CHECKING then { fStart := self.fStart + d, fEnd := self.fEnd + d }
  else self

/-- The member `ReinterpretCast( other, sizeofOld, sizeofNew )`:
`fStart = other.fStart * sizeofNew / sizeofOld; fEnd = other.fEnd * sizeofNew / sizeofOld;`
with checking (C++ division truncates toward zero), an empty body without. -/
def ReinterpretCast (B : Build) (self other : ArrayBoundsCheck) (sizeofOld sizeofNew : Int) :
    ArrayBoundsCheck :=
  if B.ENABLE_ARRAY_BOUNDS_CHECKING then
    { fStart := Int.tdiv (other.fStart * sizeofNew) sizeofOld,
      fEnd := Int.tdiv (other.fEnd * sizeofNew) sizeofOld }
  else self

end ArrayBoundsCheck

/-- The members of `ArrayBase<T, 1>` (and of `AliHLTArray<T, 1>`, which adds none). -/
structure ArrayBase1 extends ArrayBoundsCheck where
  fData : Ptr
  fSize : Int
deriving DecidableEq, Repr

/-- The members of `ArrayBase<T, 2>` (and of `AliHLTArray<T, 2>`). -/
structure ArrayBase2 extends ArrayBoundsCheck where
  fData : Ptr
  fSize : Int
  fStride : Int
deriving DecidableEq, Repr

/-- The members of `ArrayBase<T, 3>` (and of `AliHLTArray<T, 3>`). -/
structure ArrayBase3 extends ArrayBoundsCheck where
  fData : Ptr
  fSize : Int
  fStrideX : Int
  fStrideY : Int
deriving DecidableEq, Repr

namespace ArrayBase1

/-- The constructor `ArrayBase() : fData( 0 ) {}`; `fSize` and the window keep the
content of `raw`. -/
def ctor (raw : ArrayBase1) : ArrayBase1 :=
  { raw with fData := 0 }

/-- The accessor `operator[]( int x )`:
`BOUNDS_CHECK( x, fData[0] ); return fData[x];` where `BOUNDS_CHECK(x, y)` is
`if (IsInBounds(x)) {} else return y` with checking and nothing without. -/
def index (B : Build) (self : ArrayBase1) (x : Int) : Option Ptr :=
  if B.ENABLE_ARRAY_BOUNDS_CHECKING then
    match self.toArrayBoundsCheck.IsInBounds B x with
    | none => none
    | some true => some (self.fData + x)
    | some false => some (self.fData + 0)
  else some (self.fData + x)

/-- The member `SetSize( int x, int, int )`: `fSize = x;`. -/
def SetSize (self : ArrayBase1) (x _y _z : Int) : ArrayBase1 :=
  { self with fSize := x }

end ArrayBase1

namespace ArrayBase2

/-- The constructor `ArrayBase() : fData( 0 ), fSize( 0 ), fStride( 0 ) {}`; the window
keeps the content of `raw`. -/
def ctor (raw : ArrayBase2) : ArrayBase2 :=
  { raw with fData := 0, fSize := 0, fStride := 0 }

/-- The accessor `operator()( int x, int y )`:
`BOUNDS_CHECK( x * fStride + y, fData[0] ); return fData[x * fStride + y];`. -/
def call (B : Build) (self : ArrayBase2) (x y : Int) : Option Ptr :=
  if B.ENABLE_ARRAY_BOUNDS_CHECKING then
    match self.toArrayBoundsCheck.IsInBounds B (x * self.fStride + y) with
    | none => none
    | some true => some (self.fData + (x * self.fStride + y))
    | some false => some (self.fData + 0)
  else some (self.fData + (x * self.fStride + y))

/-- The sub-view `operator[]( int x )` of a rank-2 array:
`x *= fStride; BOUNDS_CHECK( x, AT1() ); AliHLTArray<T, 1> a; a.fData = &fData[x];
a.ArrayBoundsCheck::operator=( *this ); a.MoveBounds( -x ); return a;`
(the `BOUNDS_CHECK` line is there only with checking).  Both `AT1()` and `a` are built
by the rank-1 constructor over storage holding `raw`. -/
def index (B : Build) (raw : ArrayBase1) (self : ArrayBase2) (x : Int) : Option ArrayBase1 :=
  let x := x * self.fStride
  let build : ArrayBase1 :=
    let a := ArrayBase1.ctor raw
    let a := { a with fData := self.fData + x }
    let a := { a with toArrayBoundsCheck := self.toArrayBoundsCheck }
    { a with toArrayBoundsCheck := a.toArrayBoundsCheck.MoveBounds B (-x) }
  if B.ENABLE_ARRAY_BOUNDS_CHECKING then
    match self.toArrayBoundsCheck.IsInBounds B x with
    | none => none
    | some true => some build
    | some false => some (ArrayBase1.ctor raw)
  else some build

/-- The member `SetSize( int x, int y, int )`: `fStride = y; fSize = x * y;`. -/
def SetSize (self : ArrayBase2) (x y _z : Int) : ArrayBase2 :=
  { self with fStride := y, fSize := x * y }

end ArrayBase2

namespace ArrayBase3

/-- The constructor `ArrayBase() : fData( 0 ), fSize( 0 ), fStrideX( 0 ), fStrideY( 0 ) {}`;
the window keeps the content of `raw`. -/
def ctor (raw : ArrayBase3) : ArrayBase3 :=
  { raw with fData := 0, fSize := 0, fStrideX := 0, fStrideY := 0 }

/-- The accessor `operator()( int x, int y, int z )`:
`BOUNDS_CHECK( x * fStrideX + y + fStrideY + z, fData[0] );
return fData[x * fStrideX + y + fStrideY + z];`. -/
def call (B : Build) (self : ArrayBase3) (x y z : Int) : Option Ptr :=
  if B.ENABLE_ARRAY_BOUNDS_CHECKING then
    match self.toArrayBoundsCheck.IsInBounds B (x * self.fStrideX + y + self.fStrideY + z) with
    | none => none
    | some true => some (self.fData + (x * self.fStrideX + y + self.fStrideY + z))
    | some false => some (self.fData + 0)
  else some (self.fData + (x * self.fStrideX + y + self.fStrideY + z))

/-- The sub-view `operator[]( int x )` of a rank-3 array:
`x *= fStrideX; BOUNDS_CHECK( x, AT2() ); AliHLTArray<T, 2> a; a.fData = &fData[x];
a.fStride = fStrideY; a.ArrayBoundsCheck::operator=( *this ); a.MoveBounds( -x );
return a;` (the `BOUNDS_CHECK` line is there only with checking).  Both `AT2()` and `a`
are built by the rank-2 constructor over storage holding `raw`. -/
def index (B : Build) (raw : ArrayBase2) (self : ArrayBase3) (x : Int) : Option ArrayBase2 :=
  let x := x * self.fStrideX
  let build : ArrayBase2 :=
    let a := ArrayBase2.ctor raw
    let a := { a with fData := self.fData + x }
    let a := { a with fStride := self.fStrideY }
    let a := { a with toArrayBoundsCheck := self.toArrayBoundsCheck }
    { a with toArrayBoundsCheck := a.toArrayBoundsCheck.MoveBounds B (-x) }
  if B.ENABLE_ARRAY_BOUNDS_CHECKING then
    match self.toArrayBoundsCheck.IsInBounds B x with
    | none => none
    | some true => some build
    | some false => some (ArrayBase2.ctor raw)
  else some build

/-- The member `SetSize( int x, int y, int z )`:
`fStrideX = y * z; fStrideY = z; fSize = fStrideX * x;`. -/
def SetSize (self : ArrayBase3) (x y z : Int) : ArrayBase3 :=
  let s := { self with fStrideX := y * z }
  let s := { s with fStrideY := z }
  { s with fSize := s.fStrideX * x }

end ArrayBase3

end AliHLTInternal

open AliHLTInternal

/-! ## `AliHLTArray<T, Dim>`, one namespace per rank -/

namespace AliHLTArray1

/-- The member `Size()`: `return Parent::fSize;`. -/
def Size (self : ArrayBase1) : Int := self.fSize

/-- The member `IsValid()` (and `operator bool`): `return Parent::fData != 0;`. -/
def IsValid (self : ArrayBase1) : Bool := decide (self.fData ≠ 0)

/-- The member `operator*()`: `BOUNDS_CHECK( 0, Parent::fData[0] ); return *Parent::fData;`. -/
def deref (B : Build) (self : ArrayBase1) : Option Ptr :=
  if B.ENABLE_ARRAY_BOUNDS_CHECKING then
    match self.toArrayBoundsCheck.IsInBounds B 0 with
    | none => none
    | some true => some self.fData
    | some false => some (self.fData + 0)
  else some self.fData

/-- The member `Data()`: `return Parent::fData;`. -/
def Data (self : ArrayBase1) : Ptr := self.fData

/-- The member `operator+( int x )`:
`AliHLTArray r( *this ); r.fData += x; r.MoveBounds( -x ); return r;`. -/
def add (B : Build) (self : ArrayBase1) (x : Int) : ArrayBase1 :=
  let r := self
  let r := { r with fData := r.fData + x }
  { r with toArrayBoundsCheck := r.toArrayBoundsCheck.MoveBounds B (-x) }

/-- The member `operator-( int x )`:
`AliHLTArray r( *this ); r.fData -= x; r.MoveBounds( x ); return r;`. -/
def sub (B : Build) (self : ArrayBase1) (x : Int) : ArrayBase1 :=
  let r := self
  let r := { r with fData := r.fData - x }
  { r with toArrayBoundsCheck := r.toArrayBoundsCheck.MoveBounds B x }

end AliHLTArray1

namespace AliHLTArray2

/-- The member `Size()`: `return Parent::fSize;`. -/
def Size (self : ArrayBase2) : Int := self.fSize

/-- The member `IsValid()` (and `operator bool`): `return Parent::fData != 0;`. -/
def IsValid (self : ArrayBase2) : Bool := decide (self.fData ≠ 0)

/-- The member `operator*()`: `BOUNDS_CHECK( 0, Parent::fData[0] ); return *Parent::fData;`. -/
def deref (B : Build) (self : ArrayBase2) : Option Ptr :=
  if B.ENABLE_ARRAY_BOUNDS_CHECKING then
    match self.toArrayBoundsCheck.IsInBounds B 0 with
    | none => none
    | some true => some self.fData
    | some false => some (self.fData + 0)
  else some self.fData

/-- The member `Data()`: `return Parent::fData;`. -/
def Data (self : ArrayBase2) : Ptr := self.fData

/-- The member `operator+( int x )`:
`AliHLTArray r( *this ); r.fData += x; r.MoveBounds( -x ); return r;`. -/
def add (B : Build) (self : ArrayBase2) (x : Int) : ArrayBase2 :=
  let r := self
  let r := { r with fData := r.fData + x }
  { r with toArrayBoundsCheck := r.toArrayBoundsCheck.MoveBounds B (-x) }

/-- The member `operator-( int x )`:
`AliHLTArray r( *this ); r.fData -= x; r.MoveBounds( x ); return r;`. -/
def sub (B : Build) (self : ArrayBase2) (x : Int) : ArrayBase2 :=
  let r := self
  let r := { r with fData := r.fData - x }
  { r with toArrayBoundsCheck := r.toArrayBoundsCheck.MoveBounds B x }

end AliHLTArray2

namespace AliHLTArray3

/-- The member `Size()`: `return Parent::fSize;`. -/
def Size (self : ArrayBase3) : Int := self.fSize

/-- The member `IsValid()` (and `operator bool`): `return Parent::fData != 0;`. -/
def IsValid (self : ArrayBase3) : Bool := decide (self.fData ≠ 0)

/-- The member `operator*()`: `BOUNDS_CHECK( 0, Parent::fData[0] ); return *Parent::fData;`. -/
def deref (B : Build) (self : ArrayBase3) : Option Ptr :=
  if B.ENABLE_ARRAY_BOUNDS_CHECKING then
    match self.toArrayBoundsCheck.IsInBounds B 0 with
    | none => none
    | some true => some self.fData
    | some false => some (self.fData + 0)
  else some self.fData

/-- The member `Data()`: `return Parent::fData;`. -/
def Data (self : ArrayBase3) : Ptr := self.fData

/-- The member `operator+( int x )`:
`AliHLTArray r( *this ); r.fData += x; r.MoveBounds( -x ); return r;`. -/
def add (B : Build) (self : ArrayBase3) (x : Int) : ArrayBase3 :=
  let r := self
  let r := { r with fData := r.fData + x }
  { r with toArrayBoundsCheck := r.toArrayBoundsCheck.MoveBounds B (-x) }

/-- The member `operator-( int x )`:
`AliHLTArray r( *this ); r.fData -= x; r.MoveBounds( x ); return r;`. -/
def sub (B : Build) (self : ArrayBase3) (x : Int) : ArrayBase3 :=
  let r := self
  let r := { r with fData := r.fData - x }
  { r with toArrayBoundsCheck := r.toArrayBoundsCheck.MoveBounds B x }

end AliHLTArray3

/-! ## `AliHLTResizableArray<T, Dim, alignment>`

`Alloc` stands for `AliHLTInternal::Allocator<T, alignment>::Alloc`, which hands back
what the aligned `malloc` of the platform returned; `Free` releases memory and changes
no member. -/

namespace AliHLTResizableArray1

/-- The constructor `AliHLTResizableArray()`:
`Parent::fData = 0; Parent::SetSize( 0, 0, 0 ); Parent::SetBounds( 0, -1 );`. -/
def ctor0 (B : Build) (raw : ArrayBase1) : ArrayBase1 :=
  let s := ArrayBase1.ctor raw
  let s := { s with fData := 0 }
  let s := s.SetSize 0 0 0
  { s with toArrayBoundsCheck := s.toArrayBoundsCheck.SetBounds B 0 (-1) }

/-- The constructor `AliHLTResizableArray( int x )`:
`Parent::fData = Alloc( x ); Parent::SetSize( x, 0, 0 ); Parent::SetBounds( 0, x - 1 );`. -/
def ctor (B : Build) (Alloc : Int → Ptr) (raw : ArrayBase1) (x : Int) : ArrayBase1 :=
  let s := ArrayBase1.ctor raw
  let s := { s with fData := Alloc x }
  let s := s.SetSize x 0 0
  { s with toArrayBoundsCheck := s.toArrayBoundsCheck.SetBounds B 0 (x - 1) }

/-- The member `Resize( int x )`: `Free( Parent::fData, Parent::fSize );
Parent::fData = ( x == 0 ) ? 0 : Alloc( x ); Parent::SetSize( x, 0, 0 );
Parent::SetBounds( 0, x - 1 );`. -/
def Resize (B : Build) (Alloc : Int → Ptr) (self : ArrayBase1) (x : Int) : ArrayBase1 :=
  let s := { self with fData := if x = 0 then 0 else Alloc x }
  let s := s.SetSize x 0 0
  { s with toArrayBoundsCheck := s.toArrayBoundsCheck.SetBounds B 0 (x - 1) }

end AliHLTResizableArray1

namespace AliHLTResizableArray2

/-- The constructor `AliHLTResizableArray()`:
`Parent::fData = 0; Parent::SetSize( 0, 0, 0 ); Parent::SetBounds( 0, -1 );`. -/
def ctor0 (B : Build) (raw : ArrayBase2) : ArrayBase2 :=
  let s := ArrayBase2.ctor raw
  let s := { s with fData := 0 }
  let s := s.SetSize 0 0 0
  { s with toArrayBoundsCheck := s.toArrayBoundsCheck.SetBounds B 0 (-1) }

/-- The constructor `AliHLTResizableArray( int x, int y )`:
`Parent::fData = Alloc( x * y ); Parent::SetSize( x, y, 0 );
Parent::SetBounds( 0, x * y - 1 );`. -/
def ctor (B : Build) (Alloc : Int → Ptr) (raw : ArrayBase2) (x y : Int) : ArrayBase2 :=
  let s := ArrayBase2.ctor raw
  let s := { s with fData := Alloc (x * y) }
  let s := s.SetSize x y 0
  { s with toArrayBoundsCheck := s.toArrayBoundsCheck.SetBounds B 0 (x * y - 1) }

/-- The member `Resize( int x, int y )`: `Free( Parent::fData, Parent::fSize );
Parent::fData = ( x == 0 ) ? 0 : Alloc( x * y ); Parent::SetSize( x, y, 0 );
Parent::SetBounds( 0, x * y - 1 );`. -/
def Resize (B : Build) (Alloc : Int → Ptr) (self : ArrayBase2) (x y : Int) : ArrayBase2 :=
  let s := { self with fData := if x = 0 then 0 else Alloc (x * y) }
  let s := s.SetSize x y 0
  { s with toArrayBoundsCheck := s.toArrayBoundsCheck.SetBounds B 0 (x * y - 1) }

end AliHLTResizableArray2

namespace AliHLTResizableArray3

/-- The constructor `AliHLTResizableArray()`:
`Parent::fData = 0; Parent::SetSize( 0, 0, 0 ); Parent::SetBounds( 0, -1 );`. -/
def ctor0 (B : Build) (raw : ArrayBase3) : ArrayBase3 :=
  let s := ArrayBase3.ctor raw
  let s := { s with fData := 0 }
  let s := s.SetSize 0 0 0
  { s with toArrayBoundsCheck := s.toArrayBoundsCheck.SetBounds B 0 (-1) }

/-- The constructor `AliHLTResizableArray( int x, int y, int z )`:
`Parent::fData = Alloc( x * y * z ); Parent::SetSize( x, y, z );
Parent::SetBounds( 0, x * y * z - 1 );`. -/
def ctor (B : Build) (Alloc : Int → Ptr) (raw : ArrayBase3) (x y z : Int) : ArrayBase3 :=
  let s := ArrayBase3.ctor raw
  let s := { s with fData := Alloc (x * y * z) }
  let s := s.SetSize x y z
  { s with toArrayBoundsCheck := s.toArrayBoundsCheck.SetBounds B 0 (x * y * z - 1) }

/-- The member `Resize( int x, int y, int z )`: `Free( Parent::fData, Parent::fSize );
Parent::fData = ( x == 0 ) ? 0 : Alloc( x * y * z ); Parent::SetSize( x, y, z );
Parent::SetBounds( 0, x * y * z - 1 );`. -/
def Resize (B : Build) (Alloc : Int → Ptr) (self : ArrayBase3) (x y z : Int) : ArrayBase3 :=
  let s := { self with fData := if x = 0 then 0 else Alloc (x * y * z) }
  let s := s.SetSize x y z
  { s with toArrayBoundsCheck := s.toArrayBoundsCheck.SetBounds B 0 (x * y * z - 1) }

end AliHLTResizableArray3

/-! ## `AliHLTArraySize<x, y, z>` and `AliHLTFixedArray<T, Size, alignment>` -/

/-- The template arguments of `AliHLTArraySize<x, y, z>`, three `unsigned int`. -/
structure AliHLTArraySize where
  x : Nat
  y : Nat
  z : Nat
deriving DecidableEq, Repr

namespace AliHLTArraySize

/-- The enumerator `Size = y == 0 ? x : ( z == 0 ? x * y : x * y * z )`, the products
being taken in `unsigned int`, that is modulo `2 ^ 32`. -/
def Size (s : AliHLTArraySize) : Nat :=
  if s.y = 0 then s.x else if s.z = 0 then (s.x * s.y) % 2 ^ 32 else (s.x * s.y * s.z) % 2 ^ 32

/-- The enumerator `Dim = y == 0 ? 1 : ( z == 0 ? 2 : 3 )`. -/
def Dim (s : AliHLTArraySize) : Nat :=
  if s.y = 0 then 1 else if s.z = 0 then 2 else 3

/-- The enumerator `X = x`. -/
def X (s : AliHLTArraySize) : Nat := s.x

/-- The enumerator `Y = y`. -/
def Y (s : AliHLTArraySize) : Nat := s.y

/-- The enumerator `Z = z`. -/
def Z (s : AliHLTArraySize) : Nat := s.z

end AliHLTArraySize

namespace AliHLTFixedArray1

/-- The constructor `AliHLTFixedArray()` of an array whose `Size::Dim` is 1:
`fData = fFixedArray.ConstructAlignedData(); Parent::SetBounds( 0, Size::Size - 1 );
SetSize( Size::X, Size::Y, Size::Z );`.  The argument `storage` is the pointer that
`ConstructAlignedData` returns, which lies inside the object itself. -/
def ctor (B : Build) (S : AliHLTArraySize) (storage : Ptr) (raw : ArrayBase1) : ArrayBase1 :=
  let s := ArrayBase1.ctor raw
  let s := { s with fData := storage }
  let s := { s with toArrayBoundsCheck := s.toArrayBoundsCheck.SetBounds B 0 ((S.Size : Int) - 1) }
  s.SetSize S.X S.Y S.Z

end AliHLTFixedArray1

namespace AliHLTFixedArray2

/-- The constructor `AliHLTFixedArray()` of an array whose `Size::Dim` is 2. -/
def ctor (B : Build) (S : AliHLTArraySize) (storage : Ptr) (raw : ArrayBase2) : ArrayBase2 :=
  let s := ArrayBase2.ctor raw
  let s := { s with fData := storage }
  let s := { s with toArrayBoundsCheck := s.toArrayBoundsCheck.SetBounds B 0 ((S.Size : Int) - 1) }
  s.SetSize S.X S.Y S.Z

end AliHLTFixedArray2

namespace AliHLTFixedArray3

/-- The constructor `AliHLTFixedArray()` of an array whose `Size::Dim` is 3. -/
def ctor (B : Build) (S : AliHLTArraySize) (storage : Ptr) (raw : ArrayBase3) : ArrayBase3 :=
  let s := ArrayBase3.ctor raw
  let s := { s with fData := storage }
  let s := { s with toArrayBoundsCheck := s.toArrayBoundsCheck.SetBounds B 0 ((S.Size : Int) - 1) }
  s.SetSize S.X S.Y S.Z

end AliHLTFixedArray3

/-! ## Memory of `int` elements and the statements of calling code -/

/-- The content of memory: the `int` held at each element position. -/
abbrev Mem := Ptr → Int

/-- Storing `v` through a reference to the element at `p`. -/
def Mem.write (m : Mem) (p : Ptr) (v : Int) : Mem :=
  fun q => if q = p then v else m q

/-- The statement `a[i] = v;` on a rank-1 handle of `int`. -/
def assign (B : Build) (a : ArrayBase1) (i v : Int) (m : Mem) : Option Mem :=
  (a.index B i).map (fun p => m.write p v)

/-- The value of the expression `a[i]` on a rank-1 handle of `int`. -/
def read (B : Build) (a : ArrayBase1) (i : Int) (m : Mem) : Option Int :=
  (a.index B i).map m

/-- The statements `a[0] = 10; a[1] = 20; a[2] = 30; a[3] = 40;`. -/
def writeTenToForty (B : Build) (a : ArrayBase1) (m : Mem) : Option Mem := do
  let m ← assign B a 0 10 m
  let m ← assign B a 1 20 m
  let m ← assign B a 2 30 m
  assign B a 3 40 m

/-! ## Sequences of `operator+` and `operator-` -/

/-- One application of `operator+( x )` or of `operator-( x )`. -/
inductive Shift where
  | plus (x : Int)
  | minus (x : Int)
deriving DecidableEq, Repr

/-- The handle obtained from `h` by applying the shifts of the list from left to right. -/
def applyShifts (B : Build) : List Shift → ArrayBase1 → ArrayBase1
  | [], h => h
  | Shift.plus x :: rest, h => applyShifts B rest (AliHLTArray1.add B h x)
  | Shift.minus x :: rest, h => applyShifts B rest (AliHLTArray1.sub B h x)

/-- The net displacement of the base pointer produced by a list of shifts. -/
def netShift : List Shift → Int
  | [] => 0
  | Shift.plus x :: rest => x + netShift rest
  | Shift.minus x :: rest => -x + netShift rest

/-- The build with bounds checking enabled and assertions inert. -/
def checkedRelease : Build := { ENABLE_ARRAY_BOUNDS_CHECKING := true, NDEBUG := true }

/-- The build with bounds checking enabled and assertions live. -/
def checkedDebug : Build := { ENABLE_ARRAY_BOUNDS_CHECKING := true, NDEBUG := false }

/-- The build with bounds checking compiled out. -/
def unchecked : Build := { ENABLE_ARRAY_BOUNDS_CHECKING := false, NDEBUG := true }

/-! ## Alignment helpers of `AliHLTInternal`

Sizes are `size_t` values and addresses are `unsigned long` values, both modelled by
`Nat`; none of the sums below comes near `2 ^ 64` for an object that exists. -/

/-- The enumerator `AliHLTFullyCacheLineAligned = -1`. -/
def AliHLTFullyCacheLineAligned : Int := -1

namespace AliHLTInternal

namespace CacheLineSizeHelperEnums

/-- The enumerator `CacheLineSize = 64`. -/
def CacheLineSize : Nat := 64

/-- The enumerator `MaskedSize = sizeof( T ) & ( CacheLineSize - 1 )`. -/
def MaskedSize (sizeofT : Nat) : Nat := sizeofT &&& (CacheLineSize - 1)

/-- The enumerator
`RequiredSize = MaskedSize == 0 ? sizeof( T ) : sizeof( T ) + CacheLineSize - MaskedSize`. -/
def RequiredSize (sizeofT : Nat) : Nat :=
  if MaskedSize sizeofT = 0 then sizeofT else sizeofT + CacheLineSize - MaskedSize sizeofT

/-- The enumerator `PaddingSize = RequiredSize - sizeof( T )`. -/
def PaddingSize (sizeofT : Nat) : Nat := RequiredSize sizeofT - sizeofT

end CacheLineSizeHelperEnums

/-- The size of `CacheLineSizeHelper<T>`: the class is made of its two bases laid out one
after the other, `CacheLineSizeHelperData<T>` (the member `T fData`) and
`Padding<PaddingSize>` (the member `char fPadding[PaddingSize]`, no member when
`PaddingSize` is 0). -/
def CacheLineSizeHelper.sizeof (sizeofT : Nat) : Nat :=
  sizeofT + CacheLineSizeHelperEnums.PaddingSize sizeofT

/-- The size of `TypeForAlignmentHelper<T, alignment>::Type`, which is
`CacheLineSizeHelper<T>` when `alignment` is `AliHLTFullyCacheLineAligned` and `T`
otherwise. -/
def TypeForAlignmentHelper.sizeofType (sizeofT : Nat) (alignment : Int) : Nat :=
  if alignment = AliHLTFullyCacheLineAligned then CacheLineSizeHelper.sizeof sizeofT
  else sizeofT

namespace AlignedData

/-- The enumerator `Alignment = _alignment == AliHLTFullyCacheLineAligned ? 128 : _alignment`
of the primary template (the one used when `_alignment` is not 0).  The static assertion
next to it admits only values with a single bit set. -/
def Alignment (alignment : Int) : Int :=
  if alignment = AliHLTFullyCacheLineAligned then 128 else alignment

/-- The enumerator `PaddedSize = Size * sizeof( T ) + Alignment`, the length of the member
`char fUnalignedArray[PaddedSize]`. -/
def PaddedSize (Size sizeofT : Nat) (alignment : Int) : Int :=
  (Size * sizeofT : Nat) + Alignment alignment

/-- The member `ConstructAlignedData()`:
`const int offset = reinterpret_cast<unsigned long>( &fUnalignedArray[0] ) & ( Alignment - 1 );
void *mem = &fUnalignedArray[0] + ( Alignment - offset ); return new( mem ) T[Size];`.
The argument `fUnalignedArray` is the address of the first byte of the member of that
name; the result is the address `mem`. -/
def ConstructAlignedData (alignment : Int) (fUnalignedArray : Nat) : Int :=
  let offset : Int := ((fUnalignedArray &&& (Alignment alignment - 1).toNat : Nat) : Int)
  let mem : Int := (fUnalignedArray : Int) + (Alignment alignment - offset)
  mem

/-- The destructor `~AlignedData()`, as far as the address it destroys elements at:
`const int offset = reinterpret_cast<unsigned long>( &fUnalignedArray[0] ) & ( Alignment - 1 );
T *mem = reinterpret_cast<T *>( &fUnalignedArray[0] + ( Alignment - offset ) );`. -/
def destructorData (alignment : Int) (fUnalignedArray : Nat) : Int :=
  let offset : Int := ((fUnalignedArray &&& (Alignment alignment - 1).toNat : Nat) : Int)
  let mem : Int := (fUnalignedArray : Int) + (Alignment alignment - offset)
  mem

end AlignedData

end AliHLTInternal

/-! ## The member template `AliHLTArray<T, Dim>::ReinterpretCast<Other>()` -/

/-- What a call of `ReinterpretCast<Other>()` leaves behind: the local `r` as it stands at
the closing brace of the body, and the value a `return` statement hands to the caller,
`none` when the body runs to its closing brace without executing one. -/
structure ReinterpretCastOutcome (α : Type) where
  r : α
  returned : Option α

/-- The member template `ReinterpretCast<Other>()` at rank 1, whose whole body is
`AliHLTArray<Other, Dim> r; r.fData = reinterpret_cast<Other *>( Parent::fData );
r.ReinterpretCast( *this, sizeof( T ), sizeof( Other ) );` where the last call is taken to
be the three-argument `ArrayBoundsCheck::ReinterpretCast`.  The argument
`reinterpret_cast` renumbers a position counted in elements of `T` into the position of
the same byte counted in elements of `Other`. -/
def AliHLTArray1.ReinterpretCast (B : Build) (reinterpret_cast : Ptr → Ptr) (raw : ArrayBase1)
    (self : ArrayBase1) (sizeofT sizeofOther : Int) : ReinterpretCastOutcome ArrayBase1 :=
  let r := ArrayBase1.ctor raw
  let r := { r with fData := reinterpret_cast self.fData }
  let r := { r with toArrayBoundsCheck :=
    r.toArrayBoundsCheck.ReinterpretCast B self.toArrayBoundsCheck sizeofT sizeofOther }
  { r := r, returned := none }

/-- The member template `ReinterpretCast<Other>()` at rank 2 (same body). -/
def AliHLTArray2.ReinterpretCast (B : Build) (reinterpret_cast : Ptr → Ptr) (raw : ArrayBase2)
    (self : ArrayBase2) (sizeofT sizeofOther : Int) : ReinterpretCastOutcome ArrayBase2 :=
  let r := ArrayBase2.ctor raw
  let r := { r with fData := reinterpret_cast self.fData }
  let r := { r with toArrayBoundsCheck :=
    r.toArrayBoundsCheck.ReinterpretCast B self.toArrayBoundsCheck sizeofT sizeofOther }
  { r := r, returned := none }

/-- The member template `ReinterpretCast<Other>()` at rank 3 (same body). -/
def AliHLTArray3.ReinterpretCast (B : Build) (reinterpret_cast : Ptr → Ptr) (raw : ArrayBase3)
    (self : ArrayBase3) (sizeofT sizeofOther : Int) : ReinterpretCastOutcome ArrayBase3 :=
  let r := ArrayBase3.ctor raw
  let r := { r with fData := reinterpret_cast self.fData }
  let r := { r with toArrayBoundsCheck :=
    r.toArrayBoundsCheck.ReinterpretCast B self.toArrayBoundsCheck sizeofT sizeofOther }
  { r := r, returned := none }

/-! ## The copy constructor of `AliHLTFixedArray` -/

/-- The content of memory byte by byte. -/
abbrev ByteMem := Int → Int

/-- The library function `std::memcpy( dst, src, n )` on disjoint regions: the `n` bytes at
`dst` become the `n` bytes at `src`. -/
def memcpy (m : ByteMem) (dst src : Int) (n : Nat) : ByteMem :=
  fun a => if dst ≤ a ∧ a < dst + n then m (src + (a - dst)) else m a

/-- The address of the first byte of the element at position `p`, for elements of
`sizeofElem` bytes. -/
def byteAddress (sizeofElem : Nat) (p : Ptr) : Int := p * sizeofElem

namespace AliHLTFixedArray1

/-- The third argument of the `memcpy` of the copy constructor:
`Size::Size * sizeof( T )`. -/
def copyLength (S : AliHLTArraySize) (sizeofT : Nat) : Nat := S.Size * sizeofT

/-- The copy constructor `AliHLTFixedArray( const AliHLTFixedArray &rhs )`:
`fData = fFixedArray.ConstructAlignedData(); Parent::SetBounds( 0, Size::Size - 1 );
SetSize( Size::X, Size::Y, Size::Z );
std::memcpy( fData, rhs.fData, Size::Size * sizeof( T ) );`.  The elements pointed at by
`fData` have the type `T2 = TypeForAlignmentHelper<T, alignment>::Type`. -/
def copyCtor (B : Build) (S : AliHLTArraySize) (sizeofT : Nat) (alignment : Int)
    (storage : Ptr) (raw rhs : ArrayBase1) (m : ByteMem) : ArrayBase1 × ByteMem :=
  let s := ArrayBase1.ctor raw
  let s := { s with fData := storage }
  let s := { s with toArrayBoundsCheck := s.toArrayBoundsCheck.SetBounds B 0 ((S.Size : Int) - 1) }
  let s := s.SetSize S.X S.Y S.Z
  let sizeofT2 := TypeForAlignmentHelper.sizeofType sizeofT alignment
  (s, memcpy m (byteAddress sizeofT2 s.fData) (byteAddress sizeofT2 rhs.fData)
    (copyLength S sizeofT))

end AliHLTFixedArray1

/-! ## The window invariant -/

/-- The invariant of a bounds window: `start <= end + 1`. -/
def WindowInv (b : ArrayBoundsCheck) : Prop := b.fStart ≤ b.fEnd + 1

instance (b : ArrayBoundsCheck) : Decidable (WindowInv b) :=
  inferInstanceAs (Decidable (b.fStart ≤ b.fEnd + 1))

/-! # Properties -/

/-! ## Auxiliary facts about the bounds gate -/

theorem IsInBounds_inside (B : Build) (b : ArrayBoundsCheck) (x : Int)
    (h1 : b.fStart ≤ x) (h2 : x ≤ b.fEnd) : b.IsInBounds B x = some true := by
  unfold ArrayBoundsCheck.IsInBounds
  simp [h1, h2]

theorem IsInBounds_checkedRelease (b : ArrayBoundsCheck) (x : Int) :
    b.IsInBounds checkedRelease x = some (decide (b.fStart ≤ x ∧ x ≤ b.fEnd)) := by
  simp [ArrayBoundsCheck.IsInBounds, checkedRelease]

theorem IsInBounds_MoveBounds (B : Build) (b : ArrayBoundsCheck) (d x : Int) :
    (b.MoveBounds B d).IsInBounds B x = b.IsInBounds B (x - d) := by
  have e1 : decide (x ≥ b.fStart + d) = decide (x - d ≥ b.fStart) := by
    rw [decide_eq_decide]; omega
  have e2 : decide (x ≤ b.fEnd + d) = decide (x - d ≤ b.fEnd) := by
    rw [decide_eq_decide]; omega
  unfold ArrayBoundsCheck.MoveBounds ArrayBoundsCheck.IsInBounds
  by_cases hc : B.ENABLE_ARRAY_BOUNDS_CHECKING = true
  · simp only [hc, if_true, e1, e2]
  · simp [hc]

theorem index1_inside (B : Build) (a : ArrayBase1) (x : Int)
    (h : a.toArrayBoundsCheck.IsInBounds B x = some true) :
    a.index B x = some (a.fData + x) := by
  unfold ArrayBase1.index
  simp [h]

theorem call2_inside (B : Build) (a : ArrayBase2) (x y : Int)
    (h : a.toArrayBoundsCheck.IsInBounds B (x * a.fStride + y) = some true) :
    a.call B x y = some (a.fData + (x * a.fStride + y)) := by
  unfold ArrayBase2.call
  simp [h]

theorem index2_inside (B : Build) (raw : ArrayBase1) (a : ArrayBase2) (x : Int)
    (h : a.toArrayBoundsCheck.IsInBounds B (x * a.fStride) = some true) :
    a.index B raw x = some
      { toArrayBoundsCheck := a.toArrayBoundsCheck.MoveBounds B (-(x * a.fStride)),
        fData := a.fData + x * a.fStride, fSize := raw.fSize } := by
  unfold ArrayBase2.index
  simp [h, ArrayBase1.ctor]

theorem index3_inside (B : Build) (raw : ArrayBase2) (a : ArrayBase3) (x : Int)
    (h : a.toArrayBoundsCheck.IsInBounds B (x * a.fStrideX) = some true) :
    a.index B raw x = some
      { toArrayBoundsCheck := a.toArrayBoundsCheck.MoveBounds B (-(x * a.fStrideX)),
        fData := a.fData + x * a.fStrideX, fSize := 0, fStride := a.fStrideY } := by
  unfold ArrayBase3.index
  simp [h, ArrayBase2.ctor]

/-- The owner built by `AliHLTResizableArray( x, y )` accepts every offset of `[0, x*y)`. -/
theorem resizable2_accepts (B : Build) (Alloc : Int → Ptr) (raw : ArrayBase2) (X Y k : Int)
    (h0 : 0 ≤ k) (h1 : k < X * Y) :
    (AliHLTResizableArray2.ctor B Alloc raw X Y).toArrayBoundsCheck.IsInBounds B k
      = some true := by
  by_cases hc : B.ENABLE_ARRAY_BOUNDS_CHECKING = true
  · apply IsInBounds_inside <;>
      simp [AliHLTResizableArray2.ctor, ArrayBase2.SetSize, ArrayBoundsCheck.SetBounds, hc]
    · exact h0
    · omega
  · simp [ArrayBoundsCheck.IsInBounds, hc]

/-- The owner built by `AliHLTResizableArray( x, y, z )` accepts every offset of
`[0, x*y*z)`. -/
theorem resizable3_accepts (B : Build) (Alloc : Int → Ptr) (raw : ArrayBase3) (X Y Z k : Int)
    (h0 : 0 ≤ k) (h1 : k < X * Y * Z) :
    (AliHLTResizableArray3.ctor B Alloc raw X Y Z).toArrayBoundsCheck.IsInBounds B k
      = some true := by
  by_cases hc : B.ENABLE_ARRAY_BOUNDS_CHECKING = true
  · apply IsInBounds_inside <;>
      simp [AliHLTResizableArray3.ctor, ArrayBase3.SetSize, ArrayBoundsCheck.SetBounds, hc]
    · exact h0
    · omega
  · simp [ArrayBoundsCheck.IsInBounds, hc]

/-- Row-major offsets of valid index pairs stay inside `[0, X*Y)`. -/
theorem offset2_range (X Y i j : Int) (hi0 : 0 ≤ i) (hi : i < X) (hj0 : 0 ≤ j) (hj : j < Y) :
    0 ≤ i * Y ∧ i * Y < X * Y ∧ 0 ≤ i * Y + j ∧ i * Y + j < X * Y := by
  have hY : 0 < Y := by omega
  have h1 : 0 ≤ i * Y := Int.mul_nonneg hi0 (by omega)
  have h2 : (i + 1) * Y ≤ X * Y := Int.mul_le_mul_of_nonneg_right (by omega) (by omega)
  have h3 : (i + 1) * Y = i * Y + Y := by ring
  refine ⟨h1, ?_, ?_, ?_⟩ <;> omega

/-- C1: for the rank-2 array built by `AliHLTResizableArray( X, Y )` and every valid index
pair `0 <= i < X`, `0 <= j < Y`, in every build, the sub-view access `a[i][j]` and the
call `a( i, j )` both refer to the element at offset `i * Y + j` from the allocated
buffer, and the three offsets passed through the bounds gate (`i * fStride` by `a[i]`,
`j` by the row, `i * fStride + j` by the call) are all accepted. -/
theorem C1_subview_matches_call_rank2 (B : Build) (Alloc : Int → Ptr) (raw2 : ArrayBase2)
    (raw1 : ArrayBase1) (X Y i j : Int)
    (hi0 : 0 ≤ i) (hi : i < X) (hj0 : 0 ≤ j) (hj : j < Y) :
    ((AliHLTResizableArray2.ctor B Alloc raw2 X Y).index B raw1 i).bind
        (fun row => row.index B j) = some (Alloc (X * Y) + (i * Y + j))
    ∧ (AliHLTResizableArray2.ctor B Alloc raw2 X Y).call B i j
        = some (Alloc (X * Y) + (i * Y + j))
    ∧ ((AliHLTResizableArray2.ctor B Alloc raw2 X Y).index B raw1 i).bind
        (fun row => row.index B j) = (AliHLTResizableArray2.ctor B Alloc raw2 X Y).call B i j
    ∧ (AliHLTResizableArray2.ctor B Alloc raw2 X Y).toArrayBoundsCheck.IsInBounds B
        (i * (AliHLTResizableArray2.ctor B Alloc raw2 X Y).fStride) = some true
    ∧ (∃ row, (AliHLTResizableArray2.ctor B Alloc raw2 X Y).index B raw1 i = some row
        ∧ row.toArrayBoundsCheck.IsInBounds B j = some true)
    ∧ (AliHLTResizableArray2.ctor B Alloc raw2 X Y).toArrayBoundsCheck.IsInBounds B
        (i * (AliHLTResizableArray2.ctor B Alloc raw2 X Y).fStride + j) = some true := by
  obtain ⟨r1, r2, r3, r4⟩ := offset2_range X Y i j hi0 hi hj0 hj
  have hS : (AliHLTResizableArray2.ctor B Alloc raw2 X Y).fStride = Y := by
    simp [AliHLTResizableArray2.ctor, ArrayBase2.SetSize]
  have hD : (AliHLTResizableArray2.ctor B Alloc raw2 X Y).fData = Alloc (X * Y) := by
    simp [AliHLTResizableArray2.ctor, ArrayBase2.SetSize]
  have g1 := resizable2_accepts B Alloc raw2 X Y (i * Y) r1 r2
  have g3 := resizable2_accepts B Alloc raw2 X Y (i * Y + j) r3 r4
  have hrow := index2_inside B raw1 (AliHLTResizableArray2.ctor B Alloc raw2 X Y) i
    (by rw [hS]; exact g1)
  have g2 : (ArrayBoundsCheck.MoveBounds B
      (AliHLTResizableArray2.ctor B Alloc raw2 X Y).toArrayBoundsCheck
      (-(i * Y))).IsInBounds B j = some true := by
    rw [IsInBounds_MoveBounds]
    have : j - -(i * Y) = i * Y + j := by ring
    rw [this]; exact g3
  have hcall := call2_inside B (AliHLTResizableArray2.ctor B Alloc raw2 X Y) i j
    (by rw [hS]; exact g3)
  have hnest : ((AliHLTResizableArray2.ctor B Alloc raw2 X Y).index B raw1 i).bind
        (fun row => row.index B j) = some (Alloc (X * Y) + (i * Y + j)) := by
    rw [hrow, Option.some_bind, index1_inside]
    · simp only [hS, hD]; congr 1; ring
    · simp only [hS]; exact g2
  rw [hS, hD] at hcall
  refine ⟨hnest, hcall, hnest.trans hcall.symm, by rw [hS]; exact g1, ?_, by rw [hS]; exact g3⟩
  exact ⟨_, hrow, by simp only [hS]; exact g2⟩

/-- C1 at extent (3, 4) and indices (1, 2), in the build with checking enabled and
assertions inert: `a[1][2]` and `a(1,2)` are the element at offset 6. -/
theorem C1_subview_matches_call_rank2_witness :
    ((0 : Int) ≤ 1 ∧ (1 : Int) < 3 ∧ (0 : Int) ≤ 2 ∧ (2 : Int) < 4)
    ∧ ((AliHLTResizableArray2.ctor checkedRelease (fun _ => 1000) ⟨⟨0, 0⟩, 0, 0, 0⟩ 3 4).index
        checkedRelease ⟨⟨0, 0⟩, 0, 0⟩ 1).bind (fun row => row.index checkedRelease 2)
      = some (1000 + (1 * 4 + 2))
    ∧ (AliHLTResizableArray2.ctor checkedRelease (fun _ => 1000) ⟨⟨0, 0⟩, 0, 0, 0⟩ 3 4).call
        checkedRelease 1 2 = some (1000 + (1 * 4 + 2)) :=
  have h := C1_subview_matches_call_rank2 checkedRelease (fun _ => 1000) ⟨⟨0, 0⟩, 0, 0, 0⟩
    ⟨⟨0, 0⟩, 0, 0⟩ 3 4 1 2 (by decide) (by decide) (by decide) (by decide)
  ⟨by decide, h.1, h.2.1⟩


/-- C2: on the rank-3 array built by `AliHLTResizableArray( 2, 3, 4 )`, in every build, the
nested sub-view access `a[1][2][3]` refers to the element at offset 23 whereas the call
`a( 1, 2, 3 )` refers to the element at offset `1 * 12 + 2 + 4 + 3 = 21`: the call
operator adds `fStrideY` to `y` where the sub-views multiply by it. -/
theorem C2_call_rank3_misses_subview (B : Build) (Alloc : Int → Ptr) (raw3 : ArrayBase3)
    (raw2 : ArrayBase2) (raw1 : ArrayBase1) :
    (((AliHLTResizableArray3.ctor B Alloc raw3 2 3 4).index B raw2 1).bind
        (fun plane => plane.index B raw1 2)).bind (fun row => row.index B 3)
      = some (Alloc 24 + 23)
    ∧ (AliHLTResizableArray3.ctor B Alloc raw3 2 3 4).call B 1 2 3 = some (Alloc 24 + 21)
    ∧ (((AliHLTResizableArray3.ctor B Alloc raw3 2 3 4).index B raw2 1).bind
        (fun plane => plane.index B raw1 2)).bind (fun row => row.index B 3)
      ≠ (AliHLTResizableArray3.ctor B Alloc raw3 2 3 4).call B 1 2 3 := by
  have h1 : (((AliHLTResizableArray3.ctor B Alloc raw3 2 3 4).index B raw2 1).bind
        (fun plane => plane.index B raw1 2)).bind (fun row => row.index B 3)
      = some (Alloc 24 + 23) := by
    cases B with
    | mk c n =>
      cases c <;> cases n <;>
        simp [AliHLTResizableArray3.ctor, ArrayBase3.SetSize, ArrayBase3.ctor, ArrayBase3.index,
          ArrayBase2.index, ArrayBase2.ctor, ArrayBase1.index, ArrayBase1.ctor,
          ArrayBoundsCheck.SetBounds, ArrayBoundsCheck.MoveBounds,
          ArrayBoundsCheck.IsInBounds, add_assoc]
  have h2 : (AliHLTResizableArray3.ctor B Alloc raw3 2 3 4).call B 1 2 3
      = some (Alloc 24 + 21) := by
    cases B with
    | mk c n =>
      cases c <;> cases n <;>
        simp [AliHLTResizableArray3.ctor, ArrayBase3.SetSize, ArrayBase3.ctor, ArrayBase3.call,
          ArrayBoundsCheck.SetBounds, ArrayBoundsCheck.IsInBounds]
  refine ⟨h1, h2, ?_⟩
  rw [h1, h2]
  intro h
  have h3 : Alloc 24 + 23 = Alloc 24 + 21 := Option.some.inj h
  exact absurd (Int.add_left_cancel h3) (by decide)


/-- Row-major offsets of valid index triples stay inside `[0, X*Y*Z)`. -/
theorem offset3_range (X Y Z i j k : Int) (hi0 : 0 ≤ i) (hi : i < X) (hj0 : 0 ≤ j) (hj : j < Y)
    (hk0 : 0 ≤ k) (hk : k < Z) :
    (0 ≤ i * (Y * Z) ∧ i * (Y * Z) < X * Y * Z)
    ∧ (0 ≤ i * (Y * Z) + j * Z ∧ i * (Y * Z) + j * Z < X * Y * Z)
    ∧ (0 ≤ i * (Y * Z) + j * Z + k ∧ i * (Y * Z) + j * Z + k < X * Y * Z) := by
  obtain ⟨a1, a2, a3, a4⟩ := offset2_range Y Z j k hj0 hj hk0 hk
  obtain ⟨b1, b2, b3, b4⟩ := offset2_range X (Y * Z) i (j * Z + k) hi0 hi a3 a4
  obtain ⟨c1, c2, c3, c4⟩ := offset2_range X (Y * Z) i (j * Z) hi0 hi a1 a2
  have e : X * (Y * Z) = X * Y * Z := by ring
  rw [e] at b2 b4 c4
  refine ⟨⟨b1, b2⟩, ⟨c3, c4⟩, ?_, ?_⟩ <;> omega

/-- C3: for the rank-3 array built by `AliHLTResizableArray( X, Y, Z )` and every valid
index triple, in every build: `a[i]` is a rank-2 handle whose base is the owner's base
advanced by `i * fStrideX = i * (Y * Z)`, whose stride is `fStrideY = Z` and whose window is
the owner's window moved by `-(i * (Y * Z))`; `a[i][j]` is a rank-1 handle; and
`a[i][j][k]` refers to the element at the row-major offset `i * Y * Z + j * Z + k` of the
owner's buffer.  Each of the three offsets passed through the bounds gate is accepted. -/
theorem C3_nested_subview_is_row_major (B : Build) (Alloc : Int → Ptr) (raw3 : ArrayBase3)
    (raw2 : ArrayBase2) (raw1 : ArrayBase1) (X Y Z i j k : Int)
    (hi0 : 0 ≤ i) (hi : i < X) (hj0 : 0 ≤ j) (hj : j < Y) (hk0 : 0 ≤ k) (hk : k < Z) :
    ∃ plane row,
      (AliHLTResizableArray3.ctor B Alloc raw3 X Y Z).index B raw2 i = some plane
      ∧ plane.fData = Alloc (X * Y * Z) + i * (Y * Z)
      ∧ plane.fStride = Z
      ∧ plane.toArrayBoundsCheck =
          (AliHLTResizableArray3.ctor B Alloc raw3 X Y Z).toArrayBoundsCheck.MoveBounds B
            (-(i * (Y * Z)))
      ∧ (B.ENABLE_ARRAY_BOUNDS_CHECKING = true →
          plane.fStart = 0 - i * (Y * Z) ∧ plane.fEnd = X * Y * Z - 1 - i * (Y * Z))
      ∧ plane.index B raw1 j = some row
      ∧ row.index B k = some (Alloc (X * Y * Z) + (i * Y * Z + j * Z + k))
      ∧ (AliHLTResizableArray3.ctor B Alloc raw3 X Y Z).toArrayBoundsCheck.IsInBounds B
          (i * (AliHLTResizableArray3.ctor B Alloc raw3 X Y Z).fStrideX) = some true
      ∧ plane.toArrayBoundsCheck.IsInBounds B (j * plane.fStride) = some true
      ∧ row.toArrayBoundsCheck.IsInBounds B k = some true := by
  obtain ⟨⟨r1, r2⟩, ⟨r3, r4⟩, r5, r6⟩ := offset3_range X Y Z i j k hi0 hi hj0 hj hk0 hk
  have hSX : (AliHLTResizableArray3.ctor B Alloc raw3 X Y Z).fStrideX = Y * Z := by
    simp [AliHLTResizableArray3.ctor, ArrayBase3.SetSize]
  have hSY : (AliHLTResizableArray3.ctor B Alloc raw3 X Y Z).fStrideY = Z := by
    simp [AliHLTResizableArray3.ctor, ArrayBase3.SetSize]
  have hD : (AliHLTResizableArray3.ctor B Alloc raw3 X Y Z).fData = Alloc (X * Y * Z) := by
    simp [AliHLTResizableArray3.ctor, ArrayBase3.SetSize]
  have g1 := resizable3_accepts B Alloc raw3 X Y Z _ r1 r2
  have g2 := resizable3_accepts B Alloc raw3 X Y Z _ r3 r4
  have g3 := resizable3_accepts B Alloc raw3 X Y Z _ r5 r6
  have hplane := index3_inside B raw2 (AliHLTResizableArray3.ctor B Alloc raw3 X Y Z) i
    (by rw [hSX]; exact g1)
  rw [hSX, hSY, hD] at hplane
  have gp : (ArrayBoundsCheck.MoveBounds B
      (AliHLTResizableArray3.ctor B Alloc raw3 X Y Z).toArrayBoundsCheck
      (-(i * (Y * Z)))).IsInBounds B (j * Z) = some true := by
    rw [IsInBounds_MoveBounds]
    have e : j * Z - -(i * (Y * Z)) = i * (Y * Z) + j * Z := by ring
    rw [e]; exact g2
  have hrow := index2_inside B raw1
    { toArrayBoundsCheck := ArrayBoundsCheck.MoveBounds B
        (AliHLTResizableArray3.ctor B Alloc raw3 X Y Z).toArrayBoundsCheck (-(i * (Y * Z))),
      fData := Alloc (X * Y * Z) + i * (Y * Z), fSize := 0, fStride := Z } j gp
  have gr : (ArrayBoundsCheck.MoveBounds B (ArrayBoundsCheck.MoveBounds B
      (AliHLTResizableArray3.ctor B Alloc raw3 X Y Z).toArrayBoundsCheck
      (-(i * (Y * Z)))) (-(j * Z))).IsInBounds B k = some true := by
    rw [IsInBounds_MoveBounds, IsInBounds_MoveBounds]
    have e : k - -(j * Z) - -(i * (Y * Z)) = i * (Y * Z) + j * Z + k := by ring
    rw [e]; exact g3
  refine ⟨_, _, hplane, rfl, rfl, rfl, ?_, hrow, ?_, by rw [hSX]; exact g1, gp, gr⟩
  · intro hc
    constructor
    · simp [ArrayBoundsCheck.MoveBounds, AliHLTResizableArray3.ctor, ArrayBase3.SetSize,
        ArrayBoundsCheck.SetBounds, hc]
    · simp [ArrayBoundsCheck.MoveBounds, AliHLTResizableArray3.ctor, ArrayBase3.SetSize,
        ArrayBoundsCheck.SetBounds, hc]
      ring
  · rw [index1_inside _ _ _ gr]
    congr 1
    ring

/-- C3 at extent (2, 3, 4) and indices (1, 2, 3), in the build with checking enabled and
assertions inert: `a[1][2][3]` is the element at offset 23. -/
theorem C3_nested_subview_is_row_major_witness :
    ((0 : Int) ≤ 1 ∧ (1 : Int) < 2 ∧ (0 : Int) ≤ 2 ∧ (2 : Int) < 3 ∧ (0 : Int) ≤ 3 ∧ (3 : Int) < 4)
    ∧ ∃ plane row,
      (AliHLTResizableArray3.ctor checkedRelease (fun _ => 1000) ⟨⟨0, 0⟩, 0, 0, 0, 0⟩
        2 3 4).index checkedRelease ⟨⟨0, 0⟩, 0, 0, 0⟩ 1 = some plane
      ∧ plane.index checkedRelease ⟨⟨0, 0⟩, 0, 0⟩ 2 = some row
      ∧ row.index checkedRelease 3 = some (1000 + (1 * 3 * 4 + 2 * 4 + 3)) :=
  have h := C3_nested_subview_is_row_major checkedRelease (fun _ => 1000)
    ⟨⟨0, 0⟩, 0, 0, 0, 0⟩ ⟨⟨0, 0⟩, 0, 0, 0⟩ ⟨⟨0, 0⟩, 0, 0⟩ 2 3 4 1 2 3
    (by decide) (by decide) (by decide) (by decide) (by decide) (by decide)
  ⟨by decide, h.elim fun plane hp => hp.elim fun row hr =>
    ⟨plane, row, hr.1, hr.2.2.2.2.2.1, hr.2.2.2.2.2.2.1⟩⟩


/-- C4: in every build, `Size()` of an `AliHLTResizableArray` right after construction with
an extent, or right after `Resize` to an extent (whatever the array held before), is the
product of the extents given: `x` for rank 1, `x * y` for rank 2, `x * y * z` for rank 3. -/
theorem C4_size_is_product_of_extents (B : Build) (Alloc : Int → Ptr)
    (raw1 old1 : ArrayBase1) (raw2 old2 : ArrayBase2) (raw3 old3 : ArrayBase3) (x y z : Int) :
    AliHLTArray1.Size (AliHLTResizableArray1.ctor B Alloc raw1 x) = x
    ∧ AliHLTArray2.Size (AliHLTResizableArray2.ctor B Alloc raw2 x y) = x * y
    ∧ AliHLTArray3.Size (AliHLTResizableArray3.ctor B Alloc raw3 x y z) = x * y * z
    ∧ AliHLTArray1.Size (AliHLTResizableArray1.Resize B Alloc old1 x) = x
    ∧ AliHLTArray2.Size (AliHLTResizableArray2.Resize B Alloc old2 x y) = x * y
    ∧ AliHLTArray3.Size (AliHLTResizableArray3.Resize B Alloc old3 x y z) = x * y * z := by
  refine ⟨?_, ?_, ?_, ?_, ?_, ?_⟩
  · simp [AliHLTArray1.Size, AliHLTResizableArray1.ctor, ArrayBase1.SetSize]
  · simp [AliHLTArray2.Size, AliHLTResizableArray2.ctor, ArrayBase2.SetSize]
  · simp [AliHLTArray3.Size, AliHLTResizableArray3.ctor, ArrayBase3.SetSize]
    ring
  · simp [AliHLTArray1.Size, AliHLTResizableArray1.Resize, ArrayBase1.SetSize]
  · simp [AliHLTArray2.Size, AliHLTResizableArray2.Resize, ArrayBase2.SetSize]
  · simp [AliHLTArray3.Size, AliHLTResizableArray3.Resize, ArrayBase3.SetSize]
    ring

/-- C5, as stated, fails: with checking enabled and assertions inert, on a handle of four
elements allocated at 1000 (window `[0, 3]`), `(h + 2)[5]` is rejected and falls back to
the element at 1002 (index 0 of `h + 2`), whereas `h[2 + 5]` is rejected and falls back to
the element at 1000 (index 0 of `h`): the two accesses do not address the same element. -/
theorem C5_rejected_access_counterexample :
    (AliHLTArray1.add checkedRelease
        (AliHLTResizableArray1.ctor checkedRelease (fun _ => 1000) ⟨⟨0, 0⟩, 0, 0⟩ 4) 2).index
      checkedRelease 5 = some 1002
    ∧ (AliHLTResizableArray1.ctor checkedRelease (fun _ => 1000) ⟨⟨0, 0⟩, 0, 0⟩ 4).index
      checkedRelease (2 + 5) = some 1000
    ∧ (AliHLTArray1.add checkedRelease
        (AliHLTResizableArray1.ctor checkedRelease (fun _ => 1000) ⟨⟨0, 0⟩, 0, 0⟩ 4) 2).index
      checkedRelease 5
      ≠ (AliHLTResizableArray1.ctor checkedRelease (fun _ => 1000) ⟨⟨0, 0⟩, 0, 0⟩ 4).index
      checkedRelease (2 + 5) := by
  decide

/-- C5, amended.  In every build, for every rank-1 handle `h` and all integers `x`, `i`:
the bounds gate gives `(h + x)[i]` the verdict it gives `h[x + i]`, and `(h - x)[i]` the
verdict it gives `h[i - x]`; unless that verdict is a rejection with assertions inert, the
two accesses of each pair have the same outcome, and when the verdict is an acceptance
that outcome is the element at `x + i` (respectively `i - x`) from the base of `h`; on a
rejection with assertions inert, `(h + x)[i]` is the element at `x` from the base of `h`
and `(h - x)[i]` the one at `-x`, while `h[...]` is the element at the base of `h`.
For every rank, `operator+` adds `x` to the base pointer and moves the window by `-x`,
`operator-` subtracts `x` from the base pointer and moves the window by `x`, and the size
and stride members are unchanged. -/
theorem C5_offset_handle_access (B : Build) (h : ArrayBase1) (h2 : ArrayBase2) (h3 : ArrayBase3)
    (x i : Int) :
    ((AliHLTArray1.add B h x).toArrayBoundsCheck.IsInBounds B i
        = h.toArrayBoundsCheck.IsInBounds B (x + i)
      ∧ (AliHLTArray1.sub B h x).toArrayBoundsCheck.IsInBounds B i
        = h.toArrayBoundsCheck.IsInBounds B (i - x))
    ∧ (h.toArrayBoundsCheck.IsInBounds B (x + i) ≠ some false →
        (AliHLTArray1.add B h x).index B i = h.index B (x + i))
    ∧ (h.toArrayBoundsCheck.IsInBounds B (i - x) ≠ some false →
        (AliHLTArray1.sub B h x).index B i = h.index B (i - x))
    ∧ (h.toArrayBoundsCheck.IsInBounds B (x + i) = some true →
        (AliHLTArray1.add B h x).index B i = some (h.fData + (x + i))
        ∧ h.index B (x + i) = some (h.fData + (x + i)))
    ∧ (h.toArrayBoundsCheck.IsInBounds B (i - x) = some true →
        (AliHLTArray1.sub B h x).index B i = some (h.fData + (i - x))
        ∧ h.index B (i - x) = some (h.fData + (i - x)))
    ∧ (h.toArrayBoundsCheck.IsInBounds B (x + i) = some false →
        (AliHLTArray1.add B h x).index B i = some (h.fData + x)
        ∧ h.index B (x + i) = some h.fData)
    ∧ (h.toArrayBoundsCheck.IsInBounds B (i - x) = some false →
        (AliHLTArray1.sub B h x).index B i = some (h.fData - x)
        ∧ h.index B (i - x) = some h.fData)
    ∧ (AliHLTArray1.add B h x =
        { toArrayBoundsCheck := h.toArrayBoundsCheck.MoveBounds B (-x),
          fData := h.fData + x, fSize := h.fSize }
      ∧ AliHLTArray1.sub B h x =
        { toArrayBoundsCheck := h.toArrayBoundsCheck.MoveBounds B x,
          fData := h.fData - x, fSize := h.fSize })
    ∧ (AliHLTArray2.add B h2 x =
        { toArrayBoundsCheck := h2.toArrayBoundsCheck.MoveBounds B (-x),
          fData := h2.fData + x, fSize := h2.fSize, fStride := h2.fStride }
      ∧ AliHLTArray2.sub B h2 x =
        { toArrayBoundsCheck := h2.toArrayBoundsCheck.MoveBounds B x,
          fData := h2.fData - x, fSize := h2.fSize, fStride := h2.fStride })
    ∧ (AliHLTArray3.add B h3 x =
        { toArrayBoundsCheck := h3.toArrayBoundsCheck.MoveBounds B (-x),
          fData := h3.fData + x, fSize := h3.fSize, fStrideX := h3.fStrideX,
          fStrideY := h3.fStrideY }
      ∧ AliHLTArray3.sub B h3 x =
        { toArrayBoundsCheck := h3.toArrayBoundsCheck.MoveBounds B x,
          fData := h3.fData - x, fSize := h3.fSize, fStrideX := h3.fStrideX,
          fStrideY := h3.fStrideY })
    ∧ (B.ENABLE_ARRAY_BOUNDS_CHECKING = true →
        (AliHLTArray1.add B h x).fStart = h.fStart - x
        ∧ (AliHLTArray1.add B h x).fEnd = h.fEnd - x
        ∧ (AliHLTArray1.sub B h x).fStart = h.fStart + x
        ∧ (AliHLTArray1.sub B h x).fEnd = h.fEnd + x) := by
  have gA : (AliHLTArray1.add B h x).toArrayBoundsCheck.IsInBounds B i
      = h.toArrayBoundsCheck.IsInBounds B (x + i) := by
    have e : i - -x = x + i := by ring
    simp only [AliHLTArray1.add, IsInBounds_MoveBounds, e]
  have gS : (AliHLTArray1.sub B h x).toArrayBoundsCheck.IsInBounds B i
      = h.toArrayBoundsCheck.IsInBounds B (i - x) := by
    simp only [AliHLTArray1.sub, IsInBounds_MoveBounds]
  have dA : (AliHLTArray1.add B h x).fData = h.fData + x := rfl
  have dS : (AliHLTArray1.sub B h x).fData = h.fData - x := rfl
  have iA : (AliHLTArray1.add B h x).index B i =
      if B.ENABLE_ARRAY_BOUNDS_CHECKING then
        match h.toArrayBoundsCheck.IsInBounds B (x + i) with
        | none => none
        | some true => some (h.fData + (x + i))
        | some false => some (h.fData + x)
      else some (h.fData + (x + i)) := by
    unfold ArrayBase1.index
    rw [gA, dA]
    simp only [add_assoc, add_zero]
  have iS : (AliHLTArray1.sub B h x).index B i =
      if B.ENABLE_ARRAY_BOUNDS_CHECKING then
        match h.toArrayBoundsCheck.IsInBounds B (i - x) with
        | none => none
        | some true => some (h.fData + (i - x))
        | some false => some (h.fData - x)
      else some (h.fData + (i - x)) := by
    unfold ArrayBase1.index
    rw [gS, dS]
    have e : h.fData - x + i = h.fData + (i - x) := by ring
    simp only [e, add_zero]
  have unchk : ∀ k, B.ENABLE_ARRAY_BOUNDS_CHECKING ≠ true →
      h.toArrayBoundsCheck.IsInBounds B k = some true := by
    intro k hc
    simp [ArrayBoundsCheck.IsInBounds, hc]
  refine ⟨⟨gA, gS⟩, ?_, ?_, ?_, ?_, ?_, ?_, ⟨rfl, rfl⟩, ⟨rfl, rfl⟩, ⟨rfl, rfl⟩, ?_⟩
  · intro hv
    rw [iA]
    unfold ArrayBase1.index
    by_cases hc : B.ENABLE_ARRAY_BOUNDS_CHECKING = true
    · simp only [hc, if_true]
      rcases hg : h.toArrayBoundsCheck.IsInBounds B (x + i) with _ | b
      · rfl
      · cases b
        · exact absurd hg hv
        · rfl
    · simp [hc]
  · intro hv
    rw [iS]
    unfold ArrayBase1.index
    by_cases hc : B.ENABLE_ARRAY_BOUNDS_CHECKING = true
    · simp only [hc, if_true]
      rcases hg : h.toArrayBoundsCheck.IsInBounds B (i - x) with _ | b
      · rfl
      · cases b
        · exact absurd hg hv
        · rfl
    · simp [hc]
  · intro hv
    rw [iA, index1_inside B h _ hv, hv]
    simp
  · intro hv
    rw [iS, index1_inside B h _ hv, hv]
    simp
  · intro hv
    have hc : B.ENABLE_ARRAY_BOUNDS_CHECKING = true := by
      by_contra hc
      rw [unchk _ hc] at hv
      exact absurd hv (by decide)
    rw [iA]
    unfold ArrayBase1.index
    simp [hv, hc]
  · intro hv
    have hc : B.ENABLE_ARRAY_BOUNDS_CHECKING = true := by
      by_contra hc
      rw [unchk _ hc] at hv
      exact absurd hv (by decide)
    rw [iS]
    unfold ArrayBase1.index
    simp [hv, hc]
  · intro hc
    simp [AliHLTArray1.add, AliHLTArray1.sub, ArrayBoundsCheck.MoveBounds, hc]
    constructor <;> rfl

/-- C5 amended, at the owner of four elements allocated at 1000 with `x = 2`, `i = 1`, checking
enabled and assertions inert: `h[2 + 1]` is accepted and `(h + 2)[1]` is the element at
offset 3. -/
theorem C5_offset_handle_access_witness :
    (AliHLTResizableArray1.ctor checkedRelease (fun _ => 1000)
        ⟨⟨0, 0⟩, 0, 0⟩ 4).toArrayBoundsCheck.IsInBounds checkedRelease (2 + 1) = some true
    ∧ (AliHLTArray1.add checkedRelease
        (AliHLTResizableArray1.ctor checkedRelease (fun _ => 1000) ⟨⟨0, 0⟩, 0, 0⟩ 4) 2).index
      checkedRelease 1 = some (1000 + (2 + 1)) :=
  ⟨by decide,
    ((C5_offset_handle_access checkedRelease
      (AliHLTResizableArray1.ctor checkedRelease (fun _ => 1000) ⟨⟨0, 0⟩, 0, 0⟩ 4)
      ⟨⟨0, 0⟩, 0, 0, 0⟩ ⟨⟨0, 0⟩, 0, 0, 0, 0⟩ 2 1).2.2.2.1 (by decide)).1⟩

/-- C6: in every build, for a handle `h` of any rank and every integer `d`, `(h + d) - d` and
`(h - d) + d` are equal to `h` member for member: base pointer, window, size, strides. -/
theorem C6_offset_then_back_is_identity (B : Build) (h1 : ArrayBase1) (h2 : ArrayBase2)
    (h3 : ArrayBase3) (d : Int) :
    AliHLTArray1.sub B (AliHLTArray1.add B h1 d) d = h1
    ∧ AliHLTArray1.add B (AliHLTArray1.sub B h1 d) d = h1
    ∧ AliHLTArray2.sub B (AliHLTArray2.add B h2 d) d = h2
    ∧ AliHLTArray2.add B (AliHLTArray2.sub B h2 d) d = h2
    ∧ AliHLTArray3.sub B (AliHLTArray3.add B h3 d) d = h3
    ∧ AliHLTArray3.add B (AliHLTArray3.sub B h3 d) d = h3 := by
  have m1 : ∀ b : ArrayBoundsCheck, (b.MoveBounds B (-d)).MoveBounds B d = b := by
    intro b
    cases b
    by_cases hc : B.ENABLE_ARRAY_BOUNDS_CHECKING = true <;>
      simp [ArrayBoundsCheck.MoveBounds, hc]
  have m2 : ∀ b : ArrayBoundsCheck, (b.MoveBounds B d).MoveBounds B (-d) = b := by
    intro b
    cases b
    by_cases hc : B.ENABLE_ARRAY_BOUNDS_CHECKING = true <;>
      simp [ArrayBoundsCheck.MoveBounds, hc]
  refine ⟨?_, ?_, ?_, ?_, ?_, ?_⟩
  · cases h1; simp [AliHLTArray1.sub, AliHLTArray1.add, m1]
  · cases h1; simp [AliHLTArray1.sub, AliHLTArray1.add, m2]
  · cases h2; simp [AliHLTArray2.sub, AliHLTArray2.add, m1]
  · cases h2; simp [AliHLTArray2.sub, AliHLTArray2.add, m2]
  · cases h3; simp [AliHLTArray3.sub, AliHLTArray3.add, m1]
  · cases h3; simp [AliHLTArray3.sub, AliHLTArray3.add, m2]


/-- C7, as stated, fails: on the fixed rank-1 array of four `int` (storage at 1000), with
checking enabled and assertions inert, the handle `a + 2` has `IsInBounds( -1 )` true, not
false: its window still contains index -1, the original index 1. -/
theorem C7_shifted_window_counterexample :
    (AliHLTArray1.add checkedRelease
        (AliHLTFixedArray1.ctor checkedRelease ⟨4, 0, 0⟩ 1000
          ⟨⟨0, 0⟩, 0, 0⟩) 2).toArrayBoundsCheck.IsInBounds checkedRelease (-1) = some true
    ∧ ¬ ((AliHLTArray1.add checkedRelease
        (AliHLTFixedArray1.ctor checkedRelease ⟨4, 0, 0⟩ 1000
          ⟨⟨0, 0⟩, 0, 0⟩) 2).toArrayBoundsCheck.IsInBounds checkedRelease (-1) = some false) := by
  decide

/-- C7, amended.  For the fixed rank-1 array `a` of four `int` in a build with checking
enabled: the four writes `a[0] = 10; a[1] = 20; a[2] = 30; a[3] = 40;` all go through,
after which `Data()[2]` is 30 and the handle `a + 2` reads 30 at its index 0; the window of
`a + 2` is `[-2, 1]`, so `IsInBounds( -1 )` is true on `a + 2` (index -1 of the shifted view
is the original index 1, a valid element), and with assertions inert `IsInBounds` is false
at -3 and at 2, the first indices outside the window. -/
theorem C7_fixed_array_scenario (B : Build) (storage : Ptr) (raw : ArrayBase1) (m0 : Mem)
    (hc : B.ENABLE_ARRAY_BOUNDS_CHECKING = true) :
    ∃ m, writeTenToForty B (AliHLTFixedArray1.ctor B ⟨4, 0, 0⟩ storage raw) m0 = some m
      ∧ m (AliHLTArray1.Data (AliHLTFixedArray1.ctor B ⟨4, 0, 0⟩ storage raw) + 2) = 30
      ∧ read B (AliHLTArray1.add B (AliHLTFixedArray1.ctor B ⟨4, 0, 0⟩ storage raw) 2) 0 m
          = some 30
      ∧ (AliHLTArray1.add B (AliHLTFixedArray1.ctor B ⟨4, 0, 0⟩ storage raw) 2).fStart = -2
      ∧ (AliHLTArray1.add B (AliHLTFixedArray1.ctor B ⟨4, 0, 0⟩ storage raw) 2).fEnd = 1
      ∧ (AliHLTArray1.add B (AliHLTFixedArray1.ctor B ⟨4, 0, 0⟩ storage
          raw) 2).toArrayBoundsCheck.IsInBounds B (-1) = some true
      ∧ (B.NDEBUG = true →
          (AliHLTArray1.add B (AliHLTFixedArray1.ctor B ⟨4, 0, 0⟩ storage
            raw) 2).toArrayBoundsCheck.IsInBounds B (-3) = some false
          ∧ (AliHLTArray1.add B (AliHLTFixedArray1.ctor B ⟨4, 0, 0⟩ storage
            raw) 2).toArrayBoundsCheck.IsInBounds B 2 = some false) := by
  have hb : (AliHLTFixedArray1.ctor B ⟨4, 0, 0⟩ storage raw).toArrayBoundsCheck = ⟨0, 3⟩ := by
    simp [AliHLTFixedArray1.ctor, ArrayBase1.SetSize, ArrayBoundsCheck.SetBounds, hc,
      AliHLTArraySize.Size]
  have hd : (AliHLTFixedArray1.ctor B ⟨4, 0, 0⟩ storage raw).fData = storage := by
    simp [AliHLTFixedArray1.ctor, ArrayBase1.SetSize]
  have ha : ∀ k : Int, 0 ≤ k → k ≤ 3 →
      (AliHLTFixedArray1.ctor B ⟨4, 0, 0⟩ storage raw).index B k = some (storage + k) := by
    intro k k0 k3
    rw [index1_inside, hd]
    apply IsInBounds_inside <;> rw [hb] <;> assumption
  have hw : (AliHLTArray1.add B (AliHLTFixedArray1.ctor B ⟨4, 0, 0⟩ storage
      raw) 2).toArrayBoundsCheck = ⟨-2, 1⟩ := by
    simp [AliHLTArray1.add, ArrayBoundsCheck.MoveBounds, hc, hb]
  have hr : (AliHLTArray1.add B (AliHLTFixedArray1.ctor B ⟨4, 0, 0⟩ storage raw) 2).index B 0
      = some (storage + 2) := by
    rw [index1_inside]
    · simp [AliHLTArray1.add, hd]
    · apply IsInBounds_inside <;> rw [hw] <;> decide
  refine ⟨(((m0.write (storage + 0) 10).write (storage + 1) 20).write (storage + 2) 30).write
    (storage + 3) 40, ?_, ?_, ?_, ?_, ?_, ?_, ?_⟩
  · simp only [writeTenToForty, assign, ha 0 (by decide) (by decide),
      ha 1 (by decide) (by decide), ha 2 (by decide) (by decide),
      ha 3 (by decide) (by decide), Option.map_some', Option.bind_eq_bind, Option.some_bind]
  · simp [AliHLTArray1.Data, hd, Mem.write]
  · simp [read, hr, Mem.write]
  · rw [show (AliHLTArray1.add B (AliHLTFixedArray1.ctor B ⟨4, 0, 0⟩ storage raw) 2).fStart
      = (AliHLTArray1.add B (AliHLTFixedArray1.ctor B ⟨4, 0, 0⟩ storage
        raw) 2).toArrayBoundsCheck.fStart from rfl, hw]
  · rw [show (AliHLTArray1.add B (AliHLTFixedArray1.ctor B ⟨4, 0, 0⟩ storage raw) 2).fEnd
      = (AliHLTArray1.add B (AliHLTFixedArray1.ctor B ⟨4, 0, 0⟩ storage
        raw) 2).toArrayBoundsCheck.fEnd from rfl, hw]
  · apply IsInBounds_inside <;> rw [hw] <;> decide
  · intro hn
    rw [hw]
    simp [ArrayBoundsCheck.IsInBounds, hc, hn]

/-- C7 amended, with the storage at 1000, checking enabled and assertions inert. -/
theorem C7_fixed_array_scenario_witness :
    checkedRelease.ENABLE_ARRAY_BOUNDS_CHECKING = true
    ∧ ∃ m, writeTenToForty checkedRelease
          (AliHLTFixedArray1.ctor checkedRelease ⟨4, 0, 0⟩ 1000 ⟨⟨0, 0⟩, 0, 0⟩) (fun _ => 0)
          = some m
      ∧ m (AliHLTArray1.Data
          (AliHLTFixedArray1.ctor checkedRelease ⟨4, 0, 0⟩ 1000 ⟨⟨0, 0⟩, 0, 0⟩) + 2) = 30
      ∧ read checkedRelease (AliHLTArray1.add checkedRelease
          (AliHLTFixedArray1.ctor checkedRelease ⟨4, 0, 0⟩ 1000 ⟨⟨0, 0⟩, 0, 0⟩) 2) 0 m
          = some 30 :=
  ⟨rfl, (C7_fixed_array_scenario checkedRelease 1000 ⟨⟨0, 0⟩, 0, 0⟩ (fun _ => 0) rfl).elim
    fun m hm => ⟨m, hm.1, hm.2.1, hm.2.2.1⟩⟩

/-- C8: with checking enabled and assertions inert, after `SetBounds( start, end )` the
call `IsInBounds( x )` returns true exactly when `start <= x <= end`, and false otherwise;
for the empty window `start = end + 1` it returns false at every `x`. -/
theorem C8_IsInBounds_iff_in_window (b : ArrayBoundsCheck) (start endv x : Int) :
    (b.SetBounds checkedRelease start endv).IsInBounds checkedRelease x
        = some (decide (start ≤ x ∧ x ≤ endv))
    ∧ ((b.SetBounds checkedRelease start endv).IsInBounds checkedRelease x = some true
        ↔ (start ≤ x ∧ x ≤ endv))
    ∧ (start = endv + 1 →
        (b.SetBounds checkedRelease start endv).IsInBounds checkedRelease x = some false) := by
  have h : (b.SetBounds checkedRelease start endv).IsInBounds checkedRelease x
      = some (decide (start ≤ x ∧ x ≤ endv)) := by
    rw [IsInBounds_checkedRelease]
    simp [ArrayBoundsCheck.SetBounds, checkedRelease]
  refine ⟨h, ?_, ?_⟩
  · rw [h]
    simp
  · intro he
    rw [h]
    have : ¬ (start ≤ x ∧ x ≤ endv) := by omega
    simp [this]

/-- C8 at the empty window `[1, 0]` and `x = 5`. -/
theorem C8_IsInBounds_iff_in_window_witness :
    (1 : Int) = 0 + 1
    ∧ (ArrayBoundsCheck.SetBounds checkedRelease ⟨7, 9⟩ 1 0).IsInBounds checkedRelease 5
        = some false :=
  ⟨by decide, (C8_IsInBounds_iff_in_window ⟨7, 9⟩ 1 0 5).2.2 (by decide)⟩

/-- C9: with checking enabled and assertions inert, each element accessor returns the
element at the linear offset it computed when that offset lies in the window of the
handle, and the element at index 0 of the handle (`fData[0]`) when it does not: rank-1
`operator[]( x )` with offset `x`, rank-2 `operator()( x, y )` with offset
`x * fStride + y`, rank-3 `operator()( x, y, z )` with the offset
`x * fStrideX + y + fStrideY + z` the source computes; `operator*` returns the element at
index 0 whether or not 0 lies in the window. -/
theorem C9_rejected_access_falls_back_to_index_zero (a1 : ArrayBase1) (a2 : ArrayBase2)
    (a3 : ArrayBase3) (x y z : Int) :
    a1.index checkedRelease x
        = some (if a1.fStart ≤ x ∧ x ≤ a1.fEnd then a1.fData + x else a1.fData)
    ∧ a2.call checkedRelease x y
        = some (if a2.fStart ≤ x * a2.fStride + y ∧ x * a2.fStride + y ≤ a2.fEnd
            then a2.fData + (x * a2.fStride + y) else a2.fData)
    ∧ a3.call checkedRelease x y z
        = some (if a3.fStart ≤ x * a3.fStrideX + y + a3.fStrideY + z
              ∧ x * a3.fStrideX + y + a3.fStrideY + z ≤ a3.fEnd
            then a3.fData + (x * a3.fStrideX + y + a3.fStrideY + z) else a3.fData)
    ∧ AliHLTArray1.deref checkedRelease a1 = some a1.fData
    ∧ AliHLTArray2.deref checkedRelease a2 = some a2.fData
    ∧ AliHLTArray3.deref checkedRelease a3 = some a3.fData := by
  refine ⟨?_, ?_, ?_, ?_, ?_, ?_⟩
  · unfold ArrayBase1.index
    rw [IsInBounds_checkedRelease]
    by_cases h : a1.fStart ≤ x ∧ x ≤ a1.fEnd <;> simp [h, checkedRelease]
  · unfold ArrayBase2.call
    rw [IsInBounds_checkedRelease]
    by_cases h : a2.fStart ≤ x * a2.fStride + y ∧ x * a2.fStride + y ≤ a2.fEnd <;>
      simp [h, checkedRelease]
  · unfold ArrayBase3.call
    rw [IsInBounds_checkedRelease]
    by_cases h : a3.fStart ≤ x * a3.fStrideX + y + a3.fStrideY + z
        ∧ x * a3.fStrideX + y + a3.fStrideY + z ≤ a3.fEnd <;>
      simp [h, checkedRelease]
  · unfold AliHLTArray1.deref
    rw [IsInBounds_checkedRelease]
    by_cases h : a1.fStart ≤ 0 ∧ 0 ≤ a1.fEnd <;> simp [h, checkedRelease]
  · unfold AliHLTArray2.deref
    rw [IsInBounds_checkedRelease]
    by_cases h : a2.fStart ≤ 0 ∧ 0 ≤ a2.fEnd <;> simp [h, checkedRelease]
  · unfold AliHLTArray3.deref
    rw [IsInBounds_checkedRelease]
    by_cases h : a3.fStart ≤ 0 ∧ 0 ≤ a3.fEnd <;> simp [h, checkedRelease]


/-- With checking enabled, a sequence of shifts moves the base pointer by its net
displacement and the window by the opposite amount. -/
theorem applyShifts_fields (B : Build) (hc : B.ENABLE_ARRAY_BOUNDS_CHECKING = true)
    (l : List Shift) (a : ArrayBase1) :
    (applyShifts B l a).fData = a.fData + netShift l
    ∧ (applyShifts B l a).fStart = a.fStart - netShift l
    ∧ (applyShifts B l a).fEnd = a.fEnd - netShift l := by
  induction l generalizing a with
  | nil => simp [applyShifts, netShift]
  | cons s rest ih =>
    cases s with
    | plus x =>
      obtain ⟨i1, i2, i3⟩ := ih (AliHLTArray1.add B a x)
      simp only [applyShifts, netShift]
      rw [i1, i2, i3]
      simp only [AliHLTArray1.add, ArrayBoundsCheck.MoveBounds, hc, if_true]
      refine ⟨?_, ?_, ?_⟩ <;> ring
    | minus x =>
      obtain ⟨i1, i2, i3⟩ := ih (AliHLTArray1.sub B a x)
      simp only [applyShifts, netShift]
      rw [i1, i2, i3]
      simp only [AliHLTArray1.sub, ArrayBoundsCheck.MoveBounds, hc, if_true]
      refine ⟨?_, ?_, ?_⟩ <;> ring

/-- The access made through a shifted handle of an owner whose window is `[0, N - 1]`. -/
theorem shifted_access (a : ArrayBase1) (N : Int) (h0 : a.fStart = 0) (hN : a.fEnd = N - 1)
    (l : List Shift) (i : Int) :
    ((applyShifts checkedRelease l a).toArrayBoundsCheck.IsInBounds checkedRelease i
        = some (decide (0 ≤ netShift l + i ∧ netShift l + i < N)))
    ∧ (applyShifts checkedRelease l a).index checkedRelease i
        = some (if 0 ≤ netShift l + i ∧ netShift l + i < N then a.fData + (netShift l + i)
            else a.fData + netShift l) := by
  obtain ⟨f1, f2, f3⟩ := applyShifts_fields checkedRelease rfl l a
  have f2b : (applyShifts checkedRelease l a).toArrayBoundsCheck.fStart = a.fStart - netShift l :=
    f2
  have f3b : (applyShifts checkedRelease l a).toArrayBoundsCheck.fEnd = a.fEnd - netShift l :=
    f3
  have e : ((applyShifts checkedRelease l a).toArrayBoundsCheck.fStart ≤ i
      ∧ i ≤ (applyShifts checkedRelease l a).toArrayBoundsCheck.fEnd)
      ↔ (0 ≤ netShift l + i ∧ netShift l + i < N) := by
    rw [f2b, f3b, h0, hN]
    constructor <;> intro h <;> constructor <;> omega
  have g : (applyShifts checkedRelease l a).toArrayBoundsCheck.IsInBounds checkedRelease i
      = some (decide (0 ≤ netShift l + i ∧ netShift l + i < N)) := by
    rw [IsInBounds_checkedRelease]
    congr 1
    rw [decide_eq_decide]
    exact e
  refine ⟨g, ?_⟩
  unfold ArrayBase1.index
  rw [g, f1]
  by_cases hin : 0 ≤ netShift l + i ∧ netShift l + i < N
  · simp [hin, checkedRelease, add_assoc]
  · simp [hin, checkedRelease]

/-- C10, as stated, fails: with checking enabled and assertions inert, on the owner of four
elements allocated at 1000, the handle `a + 4` rejects index 0 and falls back to its own
index 0, the position 1004, which is at offset 4 from the base of the owner and so not at
an offset in `[0, 4)`. -/
theorem C10_fallback_outside_buffer_counterexample :
    (applyShifts checkedRelease [Shift.plus 4]
        (AliHLTResizableArray1.ctor checkedRelease (fun _ => 1000) ⟨⟨0, 0⟩, 0, 0⟩ 4)).index
      checkedRelease 0 = some (1000 + 4)
    ∧ ¬ ∃ k : Int, 0 ≤ k ∧ k < 4
        ∧ (applyShifts checkedRelease [Shift.plus 4]
            (AliHLTResizableArray1.ctor checkedRelease (fun _ => 1000) ⟨⟨0, 0⟩, 0, 0⟩ 4)).index
          checkedRelease 0 = some (1000 + k) := by
  have h : (applyShifts checkedRelease [Shift.plus 4]
        (AliHLTResizableArray1.ctor checkedRelease (fun _ => 1000) ⟨⟨0, 0⟩, 0, 0⟩ 4)).index
      checkedRelease 0 = some (1000 + 4) := by decide
  refine ⟨h, ?_⟩
  rintro ⟨k, k0, k4, hk⟩
  rw [h] at hk
  have e : (1000 : Int) + 4 = 1000 + k := Option.some.inj hk
  omega

/-- C10, amended.  With checking enabled and assertions inert, let `owner` be a rank-1
owner of `N` elements whose buffer starts at `base` (an `AliHLTResizableArray` built with
`N`, or an `AliHLTFixedArray` of `N` elements), let `h` be obtained from it by any sequence
of `operator+` / `operator-`, of net displacement `D`, and let `i` be any index.  The gate
accepts index 0 of `h` exactly when `0 <= D < N`.  If the gate accepts `i`, or accepts index
0 of `h`, then the element `h[i]` addresses lies in the buffer, at an offset in `[0, N)`
from `base`.  If the gate rejects `i`, the element addressed is the one at offset `D` from
`base`, which lies in the buffer only when `0 <= D < N`. -/
theorem C10_shifted_access_inside_buffer (Alloc : Int → Ptr) (storage : Ptr) (raw : ArrayBase1)
    (N : Int) (n : Nat) (owner : ArrayBase1) (base : Ptr) (shifts : List Shift) (i : Int)
    (ho : (owner = AliHLTResizableArray1.ctor checkedRelease Alloc raw N ∧ base = Alloc N)
      ∨ (owner = AliHLTFixedArray1.ctor checkedRelease ⟨n, 0, 0⟩ storage raw
          ∧ base = storage ∧ N = n)) :
    ((applyShifts checkedRelease shifts owner).toArrayBoundsCheck.IsInBounds checkedRelease 0
        = some true ↔ (0 ≤ netShift shifts ∧ netShift shifts < N))
    ∧ ((applyShifts checkedRelease shifts owner).toArrayBoundsCheck.IsInBounds checkedRelease i
          = some true
        ∨ (applyShifts checkedRelease shifts owner).toArrayBoundsCheck.IsInBounds
            checkedRelease 0 = some true →
        ∃ k : Int, 0 ≤ k ∧ k < N
          ∧ (applyShifts checkedRelease shifts owner).index checkedRelease i = some (base + k))
    ∧ ((applyShifts checkedRelease shifts owner).toArrayBoundsCheck.IsInBounds checkedRelease i
          = some false →
        (applyShifts checkedRelease shifts owner).index checkedRelease i
          = some (base + netShift shifts)) := by
  have hfields : owner.fStart = 0 ∧ owner.fEnd = N - 1 ∧ owner.fData = base := by
    rcases ho with ⟨h1, h2⟩ | ⟨h1, h2, h3⟩
    · subst h1 h2
      simp [AliHLTResizableArray1.ctor, ArrayBase1.SetSize, ArrayBoundsCheck.SetBounds,
        checkedRelease]
    · subst h1 h2 h3
      simp [AliHLTFixedArray1.ctor, ArrayBase1.SetSize, ArrayBoundsCheck.SetBounds,
        checkedRelease, AliHLTArraySize.Size]
  obtain ⟨h0, hN, hD⟩ := hfields
  obtain ⟨gi, ai⟩ := shifted_access owner N h0 hN shifts i
  obtain ⟨g0, _⟩ := shifted_access owner N h0 hN shifts 0
  rw [gi, g0, ai, hD]
  simp only [add_zero, Option.some.injEq, decide_eq_true_eq, decide_eq_false_iff_not]
  refine ⟨trivial, ?_, ?_⟩
  · intro hcase
    by_cases hin : 0 ≤ netShift shifts + i ∧ netShift shifts + i < N
    · exact ⟨netShift shifts + i, hin.1, hin.2, by simp [hin]⟩
    · rcases hcase with hacc | hz
      · exact absurd hacc hin
      · exact ⟨netShift shifts, hz.1, hz.2, by simp [hin]⟩
  · intro hrej
    simp [hrej]

/-- C10 amended, on the owner of four elements allocated at 1000, the handle `(a + 2) - 1`
and the index 7: the gate accepts index 0 of the handle, and the rejected access `h[7]`
addresses an element of the buffer. -/
theorem C10_shifted_access_inside_buffer_witness :
    (applyShifts checkedRelease [Shift.plus 2, Shift.minus 1]
        (AliHLTResizableArray1.ctor checkedRelease (fun _ => 1000)
          ⟨⟨0, 0⟩, 0, 0⟩ 4)).toArrayBoundsCheck.IsInBounds checkedRelease 0 = some true
    ∧ ∃ k : Int, 0 ≤ k ∧ k < 4
      ∧ (applyShifts checkedRelease [Shift.plus 2, Shift.minus 1]
          (AliHLTResizableArray1.ctor checkedRelease (fun _ => 1000) ⟨⟨0, 0⟩, 0, 0⟩ 4)).index
        checkedRelease 7 = some (1000 + k) :=
  ⟨by decide,
    (C10_shifted_access_inside_buffer (fun _ => 1000) 0 ⟨⟨0, 0⟩, 0, 0⟩ 4 0
      (AliHLTResizableArray1.ctor checkedRelease (fun _ => 1000) ⟨⟨0, 0⟩, 0, 0⟩ 4) 1000
      [Shift.plus 2, Shift.minus 1] 7 (Or.inl ⟨rfl, rfl⟩)).2.1 (Or.inr (by decide))⟩

/-! ## Resizing, rescaling, fixed arrays and alignment -/

/-- With checking enabled, the gate returns true exactly on the indices of the window. -/
theorem IsInBounds_eq_true_iff (B : Build) (hc : B.ENABLE_ARRAY_BOUNDS_CHECKING = true)
    (b : ArrayBoundsCheck) (x : Int) :
    b.IsInBounds B x = some true ↔ (b.fStart ≤ x ∧ x ≤ b.fEnd) := by
  unfold ArrayBoundsCheck.IsInBounds
  by_cases h1 : b.fStart ≤ x <;> by_cases h2 : x ≤ b.fEnd <;>
    by_cases hn : B.NDEBUG = true <;> simp [hc, h1, h2, hn]

/-- C11: in a build with checking enabled, after `Resize( M )` on a rank-1
`AliHLTResizableArray` in any prior state (whatever extent it had), `Size()` is `M`, the
window is `[0, M - 1]` (an expression in which the prior state does not occur), and the
gate accepts an index `i` exactly when `0 <= i < M`; with assertions inert the gate
returns false on every other index, and an accepted `a[i]` is the element at `i` of the
new buffer. -/
theorem C11_resize_sets_size_and_window (B : Build) (Alloc : Int → Ptr) (old : ArrayBase1)
    (M i : Int) (hc : B.ENABLE_ARRAY_BOUNDS_CHECKING = true) :
    AliHLTArray1.Size (AliHLTResizableArray1.Resize B Alloc old M) = M
    ∧ (AliHLTResizableArray1.Resize B Alloc old M).toArrayBoundsCheck
        = { fStart := 0, fEnd := M - 1 }
    ∧ ((AliHLTResizableArray1.Resize B Alloc old M).toArrayBoundsCheck.IsInBounds B i
        = some true ↔ (0 ≤ i ∧ i < M))
    ∧ (B.NDEBUG = true →
        (AliHLTResizableArray1.Resize B Alloc old M).toArrayBoundsCheck.IsInBounds B i
          = some (decide (0 ≤ i ∧ i < M)))
    ∧ (0 ≤ i ∧ i < M →
        (AliHLTResizableArray1.Resize B Alloc old M).index B i
          = some ((AliHLTResizableArray1.Resize B Alloc old M).fData + i)) := by
  have hw : (AliHLTResizableArray1.Resize B Alloc old M).toArrayBoundsCheck
      = { fStart := 0, fEnd := M - 1 } := by
    simp [AliHLTResizableArray1.Resize, ArrayBase1.SetSize, ArrayBoundsCheck.SetBounds, hc]
  have hiff : (AliHLTResizableArray1.Resize B Alloc old M).toArrayBoundsCheck.IsInBounds B i
      = some true ↔ (0 ≤ i ∧ i < M) := by
    rw [IsInBounds_eq_true_iff B hc, hw]
    simp only []
    constructor <;> intro h <;> constructor <;> omega
  refine ⟨?_, hw, hiff, ?_, ?_⟩
  · simp [AliHLTArray1.Size, AliHLTResizableArray1.Resize, ArrayBase1.SetSize]
  · intro hn
    have e : decide (i ≤ M - 1) = decide (i < M) := by
      rw [decide_eq_decide]; omega
    rw [hw]
    simp only [ArrayBoundsCheck.IsInBounds, hc, hn, if_true]
    simp [e]
  · intro hin
    exact index1_inside B _ i (hiff.mpr hin)

/-- C11 on an array of extent 5 resized to 3, checking enabled and assertions inert:
index 2 is accepted and `a[2]` is the element at 2 of the new buffer. -/
theorem C11_resize_sets_size_and_window_witness :
    checkedRelease.ENABLE_ARRAY_BOUNDS_CHECKING = true
    ∧ ((0 : Int) ≤ 2 ∧ (2 : Int) < 3)
    ∧ (AliHLTResizableArray1.Resize checkedRelease (fun _ => 1000)
        (AliHLTResizableArray1.ctor checkedRelease (fun _ => 2000) ⟨⟨0, 0⟩, 0, 0⟩ 5) 3).index
        checkedRelease 2
      = some ((AliHLTResizableArray1.Resize checkedRelease (fun _ => 1000)
        (AliHLTResizableArray1.ctor checkedRelease (fun _ => 2000) ⟨⟨0, 0⟩, 0, 0⟩ 5) 3).fData
          + 2) :=
  ⟨rfl, by decide,
    (C11_resize_sets_size_and_window checkedRelease (fun _ => 1000)
      (AliHLTResizableArray1.ctor checkedRelease (fun _ => 2000) ⟨⟨0, 0⟩, 0, 0⟩ 5) 3 2
      rfl).2.2.2.2 (by decide)⟩

/-- C12, as stated, fails: `Resize( 3, 0 )` on a rank-2 array asks for `3 * 0 = 0` elements,
yet the buffer is what `Alloc( 0 )` returned (here 1000) and `IsValid()` is true. -/
theorem C12_resize_zero_count_counterexample :
    (3 : Int) * 0 = 0
    ∧ (AliHLTResizableArray2.Resize checkedRelease (fun _ => 1000)
        (AliHLTResizableArray2.ctor checkedRelease (fun _ => 2000) ⟨⟨0, 0⟩, 0, 0, 0⟩ 2 2)
        3 0).fData = 1000
    ∧ AliHLTArray2.IsValid (AliHLTResizableArray2.Resize checkedRelease (fun _ => 1000)
        (AliHLTResizableArray2.ctor checkedRelease (fun _ => 2000) ⟨⟨0, 0⟩, 0, 0, 0⟩ 2 2)
        3 0) = true := by
  decide

/-- C12, amended.  In every build and for every rank, when `Alloc` never returns null,
`Resize` leaves the buffer null (`IsValid()` false) exactly when its first argument `x` is
0, and non-null otherwise, whatever the other extents are: the buffer is
`( x == 0 ) ? 0 : Alloc( ... )`. -/
theorem C12_resize_null_iff_first_extent_zero (B : Build) (Alloc : Int → Ptr)
    (old1 : ArrayBase1) (old2 : ArrayBase2) (old3 : ArrayBase3) (x y z : Int)
    (hAlloc : ∀ n, Alloc n ≠ 0) :
    (AliHLTArray1.IsValid (AliHLTResizableArray1.Resize B Alloc old1 x) = false ↔ x = 0)
    ∧ (AliHLTArray2.IsValid (AliHLTResizableArray2.Resize B Alloc old2 x y) = false ↔ x = 0)
    ∧ (AliHLTArray3.IsValid (AliHLTResizableArray3.Resize B Alloc old3 x y z) = false ↔ x = 0)
    ∧ (AliHLTResizableArray1.Resize B Alloc old1 x).fData = (if x = 0 then 0 else Alloc x)
    ∧ (AliHLTResizableArray2.Resize B Alloc old2 x y).fData
        = (if x = 0 then 0 else Alloc (x * y))
    ∧ (AliHLTResizableArray3.Resize B Alloc old3 x y z).fData
        = (if x = 0 then 0 else Alloc (x * y * z)) := by
  have d1 : (AliHLTResizableArray1.Resize B Alloc old1 x).fData
      = (if x = 0 then 0 else Alloc x) := by
    simp [AliHLTResizableArray1.Resize, ArrayBase1.SetSize]
  have d2 : (AliHLTResizableArray2.Resize B Alloc old2 x y).fData
      = (if x = 0 then 0 else Alloc (x * y)) := by
    simp [AliHLTResizableArray2.Resize, ArrayBase2.SetSize]
  have d3 : (AliHLTResizableArray3.Resize B Alloc old3 x y z).fData
      = (if x = 0 then 0 else Alloc (x * y * z)) := by
    simp [AliHLTResizableArray3.Resize, ArrayBase3.SetSize]
  refine ⟨?_, ?_, ?_, d1, d2, d3⟩
  · unfold AliHLTArray1.IsValid
    rw [d1]
    by_cases hx : x = 0 <;> simp [hx, hAlloc]
  · unfold AliHLTArray2.IsValid
    rw [d2]
    by_cases hx : x = 0 <;> simp [hx, hAlloc]
  · unfold AliHLTArray3.IsValid
    rw [d3]
    by_cases hx : x = 0 <;> simp [hx, hAlloc]

/-- C12 amended, with an allocator that always returns 1000: `Resize( 0, 5 )` on a rank-2
array leaves `IsValid()` false. -/
theorem C12_resize_null_iff_first_extent_zero_witness :
    (∀ n : Int, (fun _ => 1000 : Int → Ptr) n ≠ 0)
    ∧ AliHLTArray2.IsValid (AliHLTResizableArray2.Resize checkedRelease (fun _ => 1000)
        ⟨⟨0, 3⟩, 2000, 4, 2⟩ 0 5) = false :=
  ⟨fun _ => by simp,
    (C12_resize_null_iff_first_extent_zero checkedRelease (fun _ => 1000) ⟨⟨0, 0⟩, 0, 0⟩
      ⟨⟨0, 3⟩, 2000, 4, 2⟩ ⟨⟨0, 0⟩, 0, 0, 0, 0⟩ 0 5 0 (fun _ => by simp)).2.1.mpr rfl⟩

/-- C13: in a build with checking enabled, `ArrayBoundsCheck::ReinterpretCast( other, A, B )`
sets the window to `[s * B / A, e * B / A]`, where `[s, e]` is the window of `other`, each
end on its own and whatever the window held before; for `A > 0` the division is the
truncating one: on a non-negative product it is the floor of the quotient, on a negative
product `v` it is `-((-v) / A)`, so that it rounds toward zero for negative `s` and `e`
too. -/
theorem C13_rescale_multiplies_then_divides (B : Build) (self other : ArrayBoundsCheck)
    (sizeofOld sizeofNew : Int) (hc : B.ENABLE_ARRAY_BOUNDS_CHECKING = true)
    (hOld : 0 < sizeofOld) :
    self.ReinterpretCast B other sizeofOld sizeofNew
        = { fStart := Int.tdiv (other.fStart * sizeofNew) sizeofOld,
            fEnd := Int.tdiv (other.fEnd * sizeofNew) sizeofOld }
    ∧ (0 ≤ other.fStart * sizeofNew →
        (self.ReinterpretCast B other sizeofOld sizeofNew).fStart
          = other.fStart * sizeofNew / sizeofOld)
    ∧ (other.fStart * sizeofNew < 0 →
        (self.ReinterpretCast B other sizeofOld sizeofNew).fStart
          = -(-(other.fStart * sizeofNew) / sizeofOld))
    ∧ (0 ≤ other.fEnd * sizeofNew →
        (self.ReinterpretCast B other sizeofOld sizeofNew).fEnd
          = other.fEnd * sizeofNew / sizeofOld)
    ∧ (other.fEnd * sizeofNew < 0 →
        (self.ReinterpretCast B other sizeofOld sizeofNew).fEnd
          = -(-(other.fEnd * sizeofNew) / sizeofOld)) := by
  have hpos : ∀ v : Int, 0 ≤ v → Int.tdiv v sizeofOld = v / sizeofOld :=
    fun v hv => Int.tdiv_eq_ediv hv (Int.le_of_lt hOld)
  have hneg : ∀ v : Int, v < 0 → Int.tdiv v sizeofOld = -(-v / sizeofOld) := by
    intro v hv
    have h1 : Int.tdiv (-v) sizeofOld = -v / sizeofOld :=
      Int.tdiv_eq_ediv (by omega) (Int.le_of_lt hOld)
    rw [← h1, Int.neg_tdiv, neg_neg]
  have hdef : self.ReinterpretCast B other sizeofOld sizeofNew
        = { fStart := Int.tdiv (other.fStart * sizeofNew) sizeofOld,
            fEnd := Int.tdiv (other.fEnd * sizeofNew) sizeofOld } := by
    simp [ArrayBoundsCheck.ReinterpretCast, hc]
  refine ⟨hdef, ?_, ?_, ?_, ?_⟩
  · intro h; rw [hdef]; exact hpos _ h
  · intro h; rw [hdef]; exact hneg _ h
  · intro h; rw [hdef]; exact hpos _ h
  · intro h; rw [hdef]; exact hneg _ h

/-- C13 on the window `[-3, -1]` rescaled from elements of 4 bytes to elements of 2 bytes: the
result is `[-6 / 4, -2 / 4] = [-1, 0]`, both ends rounded toward zero. -/
theorem C13_rescale_multiplies_then_divides_witness :
    checkedRelease.ENABLE_ARRAY_BOUNDS_CHECKING = true ∧ (0 : Int) < 4
    ∧ ArrayBoundsCheck.ReinterpretCast checkedRelease ⟨7, 9⟩ ⟨-3, -1⟩ 4 2
        = { fStart := -1, fEnd := 0 } :=
  ⟨rfl, by decide,
    (C13_rescale_multiplies_then_divides checkedRelease ⟨7, 9⟩ ⟨-3, -1⟩ 4 2 rfl
      (by decide)).1⟩

/-- C14: with checking enabled and assertions inert, rescaling the window `[0, 15]` of
1-byte elements to 4-byte elements, `ReinterpretCast( other, 1, 4 )`, gives the window
`[0 * 4 / 1, 15 * 4 / 1] = [0, 60]`: the gate accepts index 4 (and every index up to 60),
although the 4-byte element at index 4 occupies bytes 16 to 19, past the 16 bytes the
original window covers.  The local `r` of `AliHLTArray::ReinterpretCast` gets that same
window. -/
theorem C14_rescale_window_overruns_bytes :
    ArrayBoundsCheck.ReinterpretCast checkedRelease ⟨7, 9⟩ ⟨0, 15⟩ 1 4
        = { fStart := 0, fEnd := 60 }
    ∧ (ArrayBoundsCheck.ReinterpretCast checkedRelease ⟨7, 9⟩ ⟨0, 15⟩ 1 4).IsInBounds
        checkedRelease 4 = some true
    ∧ (ArrayBoundsCheck.ReinterpretCast checkedRelease ⟨7, 9⟩ ⟨0, 15⟩ 1 4).IsInBounds
        checkedRelease 60 = some true
    ∧ ¬ ((4 + 1) * 4 ≤ ((15 : Int) + 1) * 1)
    ∧ (AliHLTArray1.ReinterpretCast checkedRelease (fun p => p) ⟨⟨7, 9⟩, 0, 0⟩
        (AliHLTResizableArray1.ctor checkedRelease (fun _ => 1000) ⟨⟨0, 0⟩, 0, 0⟩ 16)
        1 4).r.toArrayBoundsCheck = { fStart := 0, fEnd := 60 } := by
  decide

/-- C15: in every build and at every rank, the body of `ReinterpretCast<Other>()` builds a
local `r` whose base pointer is the cast of the base pointer of `h` and whose window is
the window of `h` rescaled by `ArrayBoundsCheck::ReinterpretCast( h, sizeof( T ),
sizeof( Other ) )`, and then reaches its closing brace: it executes no `return` statement,
so no handle is handed to the caller. -/
theorem C15_ReinterpretCast_returns_nothing (B : Build) (reinterpret_cast : Ptr → Ptr)
    (raw1 h1 : ArrayBase1) (raw2 h2 : ArrayBase2) (raw3 h3 : ArrayBase3)
    (sizeofT sizeofOther : Int) :
    ((AliHLTArray1.ReinterpretCast B reinterpret_cast raw1 h1 sizeofT sizeofOther).returned
        = none
      ∧ (AliHLTArray1.ReinterpretCast B reinterpret_cast raw1 h1 sizeofT sizeofOther).r.fData
        = reinterpret_cast h1.fData
      ∧ (AliHLTArray1.ReinterpretCast B reinterpret_cast raw1 h1 sizeofT
          sizeofOther).r.toArrayBoundsCheck
        = raw1.toArrayBoundsCheck.ReinterpretCast B h1.toArrayBoundsCheck sizeofT sizeofOther)
    ∧ ((AliHLTArray2.ReinterpretCast B reinterpret_cast raw2 h2 sizeofT sizeofOther).returned
        = none
      ∧ (AliHLTArray2.ReinterpretCast B reinterpret_cast raw2 h2 sizeofT sizeofOther).r.fData
        = reinterpret_cast h2.fData
      ∧ (AliHLTArray2.ReinterpretCast B reinterpret_cast raw2 h2 sizeofT
          sizeofOther).r.toArrayBoundsCheck
        = raw2.toArrayBoundsCheck.ReinterpretCast B h2.toArrayBoundsCheck sizeofT sizeofOther)
    ∧ ((AliHLTArray3.ReinterpretCast B reinterpret_cast raw3 h3 sizeofT sizeofOther).returned
        = none
      ∧ (AliHLTArray3.ReinterpretCast B reinterpret_cast raw3 h3 sizeofT sizeofOther).r.fData
        = reinterpret_cast h3.fData
      ∧ (AliHLTArray3.ReinterpretCast B reinterpret_cast raw3 h3 sizeofT
          sizeofOther).r.toArrayBoundsCheck
        = raw3.toArrayBoundsCheck.ReinterpretCast B h3.toArrayBoundsCheck sizeofT sizeofOther) :=
  ⟨⟨rfl, rfl, rfl⟩, ⟨rfl, rfl, rfl⟩, ⟨rfl, rfl, rfl⟩⟩

/-- The value of `AliHLTArraySize::Size` when the product of the dimensions in use fits an
`int`: that product. -/
theorem ArraySize_Size_eq (S : AliHLTArraySize)
    (hfit : (if S.y = 0 then S.x else if S.z = 0 then S.x * S.y else S.x * S.y * S.z)
      < 2 ^ 31) :
    S.Size = (if S.y = 0 then S.x else if S.z = 0 then S.x * S.y else S.x * S.y * S.z) := by
  unfold AliHLTArraySize.Size
  by_cases hy : S.y = 0
  · simp [hy]
  · by_cases hz : S.z = 0
    · simp only [hy, hz, if_true, if_false] at hfit ⊢
      exact Nat.mod_eq_of_lt (by omega)
    · simp only [hy, hz, if_false] at hfit ⊢
      exact Nat.mod_eq_of_lt (by omega)

/-- C16: for every extent `(x, y, z)` given to `AliHLTArraySize` whose element count fits an
`int`: `Dim` is 1 when `y = 0`, 2 when `y != 0` and `z = 0`, 3 otherwise, hence always 1, 2
or 3; `AliHLTArraySize::Size` is the product of the dimensions that are not collapsed; and
a freshly constructed `AliHLTFixedArray` of that extent (of the rank `Dim` selects) has
`Size()` equal to `AliHLTArraySize::Size` and, in a build with checking enabled, a window
whose gate accepts exactly the indices `0 <= i < Size()`. -/
theorem C16_fixed_array_rank_size_window (B : Build) (S : AliHLTArraySize) (storage : Ptr)
    (raw1 : ArrayBase1) (raw2 : ArrayBase2) (raw3 : ArrayBase3) (i : Int)
    (hc : B.ENABLE_ARRAY_BOUNDS_CHECKING = true)
    (hfit : (if S.y = 0 then S.x else if S.z = 0 then S.x * S.y else S.x * S.y * S.z)
      < 2 ^ 31) :
    (S.Dim = 1 ∨ S.Dim = 2 ∨ S.Dim = 3)
    ∧ (S.y = 0 → S.Dim = 1)
    ∧ (S.y ≠ 0 → S.z = 0 → S.Dim = 2)
    ∧ (S.y ≠ 0 → S.z ≠ 0 → S.Dim = 3)
    ∧ S.Size = (if S.y = 0 then S.x else if S.z = 0 then S.x * S.y else S.x * S.y * S.z)
    ∧ (S.Dim = 1 →
        AliHLTArray1.Size (AliHLTFixedArray1.ctor B S storage raw1) = S.Size
        ∧ ((AliHLTFixedArray1.ctor B S storage raw1).toArrayBoundsCheck.IsInBounds B i
            = some true
          ↔ (0 ≤ i ∧ i < AliHLTArray1.Size (AliHLTFixedArray1.ctor B S storage raw1))))
    ∧ (S.Dim = 2 →
        AliHLTArray2.Size (AliHLTFixedArray2.ctor B S storage raw2) = S.Size
        ∧ ((AliHLTFixedArray2.ctor B S storage raw2).toArrayBoundsCheck.IsInBounds B i
            = some true
          ↔ (0 ≤ i ∧ i < AliHLTArray2.Size (AliHLTFixedArray2.ctor B S storage raw2))))
    ∧ (S.Dim = 3 →
        AliHLTArray3.Size (AliHLTFixedArray3.ctor B S storage raw3) = S.Size
        ∧ ((AliHLTFixedArray3.ctor B S storage raw3).toArrayBoundsCheck.IsInBounds B i
            = some true
          ↔ (0 ≤ i ∧ i < AliHLTArray3.Size (AliHLTFixedArray3.ctor B S storage raw3)))) := by
  have hS := ArraySize_Size_eq S hfit
  have gate : ∀ (b : ArrayBoundsCheck) (n : Int), b = { fStart := 0, fEnd := (S.Size : Int) - 1 } →
      n = S.Size → (b.IsInBounds B i = some true ↔ (0 ≤ i ∧ i < n)) := by
    intro b n hb hn
    rw [IsInBounds_eq_true_iff B hc, hb, hn]
    simp only []
    constructor <;> intro h <;> constructor <;> omega
  have w1 : (AliHLTFixedArray1.ctor B S storage raw1).toArrayBoundsCheck
      = { fStart := 0, fEnd := (S.Size : Int) - 1 } := by
    simp [AliHLTFixedArray1.ctor, ArrayBase1.SetSize, ArrayBoundsCheck.SetBounds, hc]
  have w2 : (AliHLTFixedArray2.ctor B S storage raw2).toArrayBoundsCheck
      = { fStart := 0, fEnd := (S.Size : Int) - 1 } := by
    simp [AliHLTFixedArray2.ctor, ArrayBase2.SetSize, ArrayBoundsCheck.SetBounds, hc]
  have w3 : (AliHLTFixedArray3.ctor B S storage raw3).toArrayBoundsCheck
      = { fStart := 0, fEnd := (S.Size : Int) - 1 } := by
    simp [AliHLTFixedArray3.ctor, ArrayBase3.SetSize, ArrayBoundsCheck.SetBounds, hc]
  refine ⟨?_, ?_, ?_, ?_, hS, ?_, ?_, ?_⟩
  · unfold AliHLTArraySize.Dim
    by_cases hy : S.y = 0
    · simp [hy]
    · by_cases hz : S.z = 0 <;> simp [hy, hz]
  · intro hy; simp [AliHLTArraySize.Dim, hy]
  · intro hy hz; simp [AliHLTArraySize.Dim, hy, hz]
  · intro hy hz; simp [AliHLTArraySize.Dim, hy, hz]
  · intro hd
    have hy : S.y = 0 := by
      by_contra hy
      by_cases hz : S.z = 0 <;> simp [AliHLTArraySize.Dim, hy, hz] at hd
    have hsz : AliHLTArray1.Size (AliHLTFixedArray1.ctor B S storage raw1) = S.Size := by
      rw [hS]
      simp [AliHLTArray1.Size, AliHLTFixedArray1.ctor, ArrayBase1.SetSize, AliHLTArraySize.X, hy]
    exact ⟨hsz, gate _ _ w1 hsz⟩
  · intro hd
    have hy : S.y ≠ 0 := by
      intro hy
      simp [AliHLTArraySize.Dim, hy] at hd
    have hz : S.z = 0 := by
      by_contra hz
      simp [AliHLTArraySize.Dim, hy, hz] at hd
    have hsz : AliHLTArray2.Size (AliHLTFixedArray2.ctor B S storage raw2) = S.Size := by
      rw [hS]
      simp [AliHLTArray2.Size, AliHLTFixedArray2.ctor, ArrayBase2.SetSize, AliHLTArraySize.X,
        AliHLTArraySize.Y, hy, hz]
    exact ⟨hsz, gate _ _ w2 hsz⟩
  · intro hd
    have hy : S.y ≠ 0 := by
      intro hy
      simp [AliHLTArraySize.Dim, hy] at hd
    have hz : S.z ≠ 0 := by
      intro hz
      simp [AliHLTArraySize.Dim, hy, hz] at hd
    have hsz : AliHLTArray3.Size (AliHLTFixedArray3.ctor B S storage raw3) = S.Size := by
      rw [hS]
      simp [AliHLTArray3.Size, AliHLTFixedArray3.ctor, ArrayBase3.SetSize, AliHLTArraySize.X,
        AliHLTArraySize.Y, AliHLTArraySize.Z, hy, hz]
      ring
    exact ⟨hsz, gate _ _ w3 hsz⟩

/-- C16 at the extent (2, 3, 4), checking enabled and assertions inert: the rank is 3, and
the fixed array has `Size()` 24. -/
theorem C16_fixed_array_rank_size_window_witness :
    checkedRelease.ENABLE_ARRAY_BOUNDS_CHECKING = true
    ∧ (if (⟨2, 3, 4⟩ : AliHLTArraySize).y = 0 then (⟨2, 3, 4⟩ : AliHLTArraySize).x
        else if (⟨2, 3, 4⟩ : AliHLTArraySize).z = 0
          then (⟨2, 3, 4⟩ : AliHLTArraySize).x * (⟨2, 3, 4⟩ : AliHLTArraySize).y
        else (⟨2, 3, 4⟩ : AliHLTArraySize).x * (⟨2, 3, 4⟩ : AliHLTArraySize).y
          * (⟨2, 3, 4⟩ : AliHLTArraySize).z) < 2 ^ 31
    ∧ (⟨2, 3, 4⟩ : AliHLTArraySize).Dim = 3
    ∧ AliHLTArray3.Size (AliHLTFixedArray3.ctor checkedRelease ⟨2, 3, 4⟩ 1000
        ⟨⟨0, 0⟩, 0, 0, 0, 0⟩) = (⟨2, 3, 4⟩ : AliHLTArraySize).Size :=
  have h := C16_fixed_array_rank_size_window checkedRelease ⟨2, 3, 4⟩ 1000 ⟨⟨0, 0⟩, 0, 0⟩
    ⟨⟨0, 0⟩, 0, 0, 0⟩ ⟨⟨0, 0⟩, 0, 0, 0, 0⟩ 5 rfl (by decide)
  ⟨rfl, by decide, h.2.2.2.1 (by decide) (by decide),
    (h.2.2.2.2.2.2.2 (by decide)).1⟩

/-- The padding arithmetic of `CacheLineSizeHelperEnums` in terms of the remainder modulo
64. -/
theorem RequiredSize_eq (s : Nat) :
    CacheLineSizeHelperEnums.MaskedSize s = s % 64
    ∧ CacheLineSizeHelperEnums.RequiredSize s = (if s % 64 = 0 then s else s + 64 - s % 64) := by
  have hm : CacheLineSizeHelperEnums.MaskedSize s = s % 64 := by
    show s &&& (2 ^ 6 - 1) = s % 2 ^ 6
    exact Nat.and_pow_two_sub_one_eq_mod s 6
  refine ⟨hm, ?_⟩
  unfold CacheLineSizeHelperEnums.RequiredSize
  rw [hm]
  rfl

/-- C17: the copy constructor of `AliHLTFixedArray` passes `Size::Size * sizeof( T )` to
`memcpy`, while an element of the array has the size of
`TypeForAlignmentHelper<T, alignment>::Type`, which under `AliHLTFullyCacheLineAligned` is
`RequiredSize`.  For four `int` of 4 bytes under that policy the copy constructor copies 16
bytes of the `4 * 64 = 256` the elements occupy: with the source at byte 640 and the copy
at byte 1280, the first byte of element 0 of the copy receives the value of the source,
the first byte of element 1 (byte 1344) keeps what it held and differs from the source
(byte 704). -/
theorem C17_copy_constructor_copies_unpadded_length (S : AliHLTArraySize) (s : Nat)
    (alignment : Int) :
    AliHLTFixedArray1.copyLength S s = S.Size * s
    ∧ TypeForAlignmentHelper.sizeofType s alignment
        = (if alignment = AliHLTFullyCacheLineAligned
            then CacheLineSizeHelperEnums.RequiredSize s else s)
    ∧ AliHLTFixedArray1.copyLength ⟨4, 0, 0⟩ 4 = 16
    ∧ (⟨4, 0, 0⟩ : AliHLTArraySize).Size
        * TypeForAlignmentHelper.sizeofType 4 AliHLTFullyCacheLineAligned = 256
    ∧ (AliHLTFixedArray1.copyCtor checkedRelease ⟨4, 0, 0⟩ 4 AliHLTFullyCacheLineAligned 20
        ⟨⟨0, 0⟩, 0, 0⟩ ⟨⟨0, 3⟩, 10, 4⟩ (fun a => if 640 ≤ a ∧ a < 896 then 7 else 0)).2 1280
        = 7
    ∧ (AliHLTFixedArray1.copyCtor checkedRelease ⟨4, 0, 0⟩ 4 AliHLTFullyCacheLineAligned 20
        ⟨⟨0, 0⟩, 0, 0⟩ ⟨⟨0, 3⟩, 10, 4⟩ (fun a => if 640 ≤ a ∧ a < 896 then 7 else 0)).2 1344
        = 0
    ∧ (fun a : Int => if 640 ≤ a ∧ a < 896 then (7 : Int) else 0) 704 = 7 := by
  obtain ⟨_, hr⟩ := RequiredSize_eq s
  refine ⟨rfl, ?_, by decide, by decide, by decide, by decide, by decide⟩
  unfold TypeForAlignmentHelper.sizeofType CacheLineSizeHelper.sizeof
    CacheLineSizeHelperEnums.PaddingSize
  by_cases ha : alignment = AliHLTFullyCacheLineAligned
  · simp only [ha, if_true]
    rw [hr]
    by_cases h0 : s % 64 = 0
    · simp [h0]
    · simp only [h0, if_false]
      omega
  · simp [ha]

/-- C18: for every element size `s`, `MaskedSize` is `s mod 64`; `RequiredSize` is a multiple
of 64, is at least `s`, and is at most any multiple of 64 that is at least `s` (so it is the
smallest such multiple, and `s` itself when `s` is a multiple of 64); `PaddingSize` is
`RequiredSize - s` and lies between 0 and 63. -/
theorem C18_required_size_is_next_multiple_of_64 (s : Nat) :
    CacheLineSizeHelperEnums.MaskedSize s = s % 64
    ∧ CacheLineSizeHelperEnums.RequiredSize s % 64 = 0
    ∧ s ≤ CacheLineSizeHelperEnums.RequiredSize s
    ∧ (∀ m : Nat, m % 64 = 0 → s ≤ m → CacheLineSizeHelperEnums.RequiredSize s ≤ m)
    ∧ (s % 64 = 0 → CacheLineSizeHelperEnums.RequiredSize s = s)
    ∧ CacheLineSizeHelperEnums.RequiredSize s = s + CacheLineSizeHelperEnums.PaddingSize s
    ∧ CacheLineSizeHelperEnums.PaddingSize s ≤ 63 := by
  obtain ⟨hm, hr⟩ := RequiredSize_eq s
  have key : CacheLineSizeHelperEnums.RequiredSize s % 64 = 0
      ∧ s ≤ CacheLineSizeHelperEnums.RequiredSize s
      ∧ CacheLineSizeHelperEnums.RequiredSize s < s + 64 := by
    rw [hr]
    split <;> omega
  unfold CacheLineSizeHelperEnums.PaddingSize
  obtain ⟨k1, k2, k3⟩ := key
  refine ⟨hm, k1, k2, ?_, ?_, ?_, ?_⟩
  · intro m hm0 hle; omega
  · intro h; omega
  · omega
  · omega

/-- C18 at `s = 100`: `RequiredSize` is at most 128, a multiple of 64 that is at least 100. -/
theorem C18_required_size_is_next_multiple_of_64_witness :
    128 % 64 = 0 ∧ 100 ≤ 128 ∧ CacheLineSizeHelperEnums.RequiredSize 100 ≤ 128 :=
  ⟨by decide, by decide,
    (C18_required_size_is_next_multiple_of_64 100).2.2.2.1 128 (by decide) (by decide)⟩

/-- The address carved by `ConstructAlignedData` for an alignment `2 ^ k`. -/
theorem ConstructAlignedData_eq (alignment : Int) (k p : Nat)
    (hA : AlignedData.Alignment alignment = 2 ^ k) :
    AlignedData.ConstructAlignedData alignment p
      = ((p + (2 ^ k - p % 2 ^ k) : Nat) : Int) := by
  have hpos : 0 < 2 ^ k := Nat.two_pow_pos k
  have hlt : p % 2 ^ k < 2 ^ k := Nat.mod_lt _ hpos
  have hnat : (AlignedData.Alignment alignment - 1).toNat = 2 ^ k - 1 := by
    rw [hA]
    have : ((2 : Int) ^ k - 1) = ((2 ^ k - 1 : Nat) : Int) := by
      rw [Nat.cast_sub hpos]; simp
    rw [this, Int.toNat_ofNat]
  unfold AlignedData.ConstructAlignedData
  simp only []
  rw [hnat, Nat.and_pow_two_sub_one_eq_mod, hA, Nat.cast_add, Nat.cast_sub (Nat.le_of_lt hlt)]
  simp

/-- C19: for an alignment `A = 2 ^ k` (given as such, or 128 under
`AliHLTFullyCacheLineAligned`), every address `p` of the first byte of `fUnalignedArray`,
every element count `n` and element size `e`: `ConstructAlignedData` returns
`q = p + (A - (p & (A - 1)))`; `q` is a multiple of `A`; `p < q <= p + A`; the `n * e` bytes
from `q` end no later than the `PaddedSize = n * e + A` bytes from `p`; and the destructor
computes the same `q`. -/
theorem C19_aligned_region_inside_buffer (alignment : Int) (k p n e : Nat)
    (hA : AlignedData.Alignment alignment = 2 ^ k) :
    AlignedData.ConstructAlignedData alignment p
        = (p : Int) + (AlignedData.Alignment alignment
            - ((p &&& (2 ^ k - 1) : Nat) : Int))
    ∧ AlignedData.ConstructAlignedData alignment p % AlignedData.Alignment alignment = 0
    ∧ (p : Int) < AlignedData.ConstructAlignedData alignment p
    ∧ AlignedData.ConstructAlignedData alignment p ≤ p + AlignedData.Alignment alignment
    ∧ AlignedData.ConstructAlignedData alignment p + ((n * e : Nat) : Int)
        ≤ p + AlignedData.PaddedSize n e alignment
    ∧ AlignedData.destructorData alignment p = AlignedData.ConstructAlignedData alignment p := by
  have hq := ConstructAlignedData_eq alignment k p hA
  have hpos : 0 < 2 ^ k := Nat.two_pow_pos k
  have hlt : p % 2 ^ k < 2 ^ k := Nat.mod_lt _ hpos
  have hdm : 2 ^ k * (p / 2 ^ k) + p % 2 ^ k = p := Nat.div_add_mod p (2 ^ k)
  have hmul : p + (2 ^ k - p % 2 ^ k) = 2 ^ k * (p / 2 ^ k + 1) := by
    rw [Nat.mul_succ]; omega
  have hAc : AlignedData.Alignment alignment = ((2 ^ k : Nat) : Int) := by
    rw [hA]; simp
  refine ⟨?_, ?_, ?_, ?_, ?_, rfl⟩
  · rw [hq, hAc, Nat.and_pow_two_sub_one_eq_mod]
    rw [Nat.cast_add, Nat.cast_sub (Nat.le_of_lt hlt)]
  · rw [hq, hAc, hmul]
    rw [Nat.cast_mul]
    exact Int.mul_emod_right _ _
  · rw [hq]
    exact_mod_cast (by omega : p < p + (2 ^ k - p % 2 ^ k))
  · rw [hq, hAc]
    exact_mod_cast (by omega : p + (2 ^ k - p % 2 ^ k) ≤ p + 2 ^ k)
  · unfold AlignedData.PaddedSize
    rw [hq, hAc]
    exact_mod_cast (by omega : p + (2 ^ k - p % 2 ^ k) + n * e ≤ p + (n * e + 2 ^ k))

/-- C19 for the alignment 16, the buffer at address 1000, three elements of four bytes:
the region starts at 1008 and its 12 bytes end before the 28 bytes of the buffer do. -/
theorem C19_aligned_region_inside_buffer_witness :
    AlignedData.Alignment 16 = 2 ^ 4
    ∧ AlignedData.ConstructAlignedData 16 1000 % AlignedData.Alignment 16 = 0
    ∧ AlignedData.ConstructAlignedData 16 1000 + ((3 * 4 : Nat) : Int)
        ≤ (1000 : Nat) + AlignedData.PaddedSize 3 4 16 :=
  have h := C19_aligned_region_inside_buffer 16 4 1000 3 4 (by decide)
  ⟨by decide, h.2.1, h.2.2.2.2.1⟩

/-- The truncating division by a positive divisor is monotone in the dividend. -/
theorem tdiv_mono (a b c : Int) (hc : 0 < c) (hab : a ≤ b) : Int.tdiv a c ≤ Int.tdiv b c := by
  have hc0 : 0 ≤ c := Int.le_of_lt hc
  have neg : ∀ v : Int, v < 0 → Int.tdiv v c = -(-v / c) := by
    intro v hv
    have h1 : Int.tdiv (-v) c = -v / c := Int.tdiv_eq_ediv (by omega) hc0
    rw [← h1, Int.neg_tdiv, neg_neg]
  by_cases ha : 0 ≤ a
  · rw [Int.tdiv_eq_ediv ha hc0, Int.tdiv_eq_ediv (by omega) hc0]
    exact Int.ediv_le_ediv hc hab
  · by_cases hb : 0 ≤ b
    · rw [neg a (by omega), Int.tdiv_eq_ediv hb hc0]
      have h1 : 0 ≤ -a / c := Int.ediv_nonneg (by omega) hc0
      have h2 : 0 ≤ b / c := Int.ediv_nonneg hb hc0
      omega
    · rw [neg a (by omega), neg b (by omega)]
      have h1 : -b / c ≤ -a / c := Int.ediv_le_ediv hc (by omega)
      omega

/-- C20, as stated, fails: the window `[0, -1]` of a default-constructed
`AliHLTResizableArray` satisfies `start <= end + 1`, but rescaled by
`ReinterpretCast( other, 1, 4 )` it becomes `[0, -4]`, which does not; and rescaled by
`ReinterpretCast( other, 4, 1 )` the empty window becomes `[0, 0]`, which accepts
index 0. -/
theorem C20_rescaled_empty_window_counterexample :
    WindowInv (AliHLTResizableArray1.ctor0 checkedRelease ⟨⟨7, 9⟩, 0, 0⟩).toArrayBoundsCheck
    ∧ ArrayBoundsCheck.ReinterpretCast checkedRelease ⟨7, 9⟩
        (AliHLTResizableArray1.ctor0 checkedRelease ⟨⟨7, 9⟩, 0, 0⟩).toArrayBoundsCheck 1 4
        = { fStart := 0, fEnd := -4 }
    ∧ ¬ WindowInv (ArrayBoundsCheck.ReinterpretCast checkedRelease ⟨7, 9⟩
        (AliHLTResizableArray1.ctor0 checkedRelease ⟨⟨7, 9⟩, 0, 0⟩).toArrayBoundsCheck 1 4)
    ∧ (ArrayBoundsCheck.ReinterpretCast checkedRelease ⟨7, 9⟩
        (AliHLTResizableArray1.ctor0 checkedRelease ⟨⟨7, 9⟩, 0, 0⟩).toArrayBoundsCheck
        4 1).IsInBounds checkedRelease 0 = some true := by
  decide

/-- C20, amended.  In a build with checking enabled, `start <= end + 1` holds for the window
set by the construction and by `Resize` of an `AliHLTResizableArray` with non-negative
extents, by the construction of an `AliHLTFixedArray`, and by the default constructor of
`AliHLTResizableArray` (window `[0, -1]`); it is preserved by `operator+` and `operator-`
at every rank and by the extraction of a sub-view at an index the gate accepts;
`ArrayBoundsCheck::ReinterpretCast` with a positive old element size and a non-negative
new one maps a window with `start <= end` to a window with `start <= end`. -/
theorem C20_window_invariant (B : Build) (Alloc : Int → Ptr) (S : AliHLTArraySize)
    (storage : Ptr) (raw1 h1 : ArrayBase1) (raw2 h2 : ArrayBase2) (raw3 h3 : ArrayBase3)
    (self other : ArrayBoundsCheck) (x y z d i sizeofOld sizeofNew : Int)
    (hc : B.ENABLE_ARRAY_BOUNDS_CHECKING = true) :
    (0 ≤ x → WindowInv (AliHLTResizableArray1.ctor B Alloc raw1 x).toArrayBoundsCheck
        ∧ WindowInv (AliHLTResizableArray1.Resize B Alloc h1 x).toArrayBoundsCheck)
    ∧ (0 ≤ x → 0 ≤ y →
        WindowInv (AliHLTResizableArray2.ctor B Alloc raw2 x y).toArrayBoundsCheck
        ∧ WindowInv (AliHLTResizableArray2.Resize B Alloc h2 x y).toArrayBoundsCheck)
    ∧ (0 ≤ x → 0 ≤ y → 0 ≤ z →
        WindowInv (AliHLTResizableArray3.ctor B Alloc raw3 x y z).toArrayBoundsCheck
        ∧ WindowInv (AliHLTResizableArray3.Resize B Alloc h3 x y z).toArrayBoundsCheck)
    ∧ (WindowInv (AliHLTFixedArray1.ctor B S storage raw1).toArrayBoundsCheck
        ∧ WindowInv (AliHLTFixedArray2.ctor B S storage raw2).toArrayBoundsCheck
        ∧ WindowInv (AliHLTFixedArray3.ctor B S storage raw3).toArrayBoundsCheck)
    ∧ ((AliHLTResizableArray1.ctor0 B raw1).toArrayBoundsCheck = { fStart := 0, fEnd := -1 }
        ∧ (AliHLTResizableArray2.ctor0 B raw2).toArrayBoundsCheck = { fStart := 0, fEnd := -1 }
        ∧ (AliHLTResizableArray3.ctor0 B raw3).toArrayBoundsCheck = { fStart := 0, fEnd := -1 }
        ∧ WindowInv { fStart := 0, fEnd := -1 })
    ∧ (WindowInv h1.toArrayBoundsCheck →
        WindowInv (AliHLTArray1.add B h1 d).toArrayBoundsCheck
        ∧ WindowInv (AliHLTArray1.sub B h1 d).toArrayBoundsCheck)
    ∧ (WindowInv h2.toArrayBoundsCheck →
        WindowInv (AliHLTArray2.add B h2 d).toArrayBoundsCheck
        ∧ WindowInv (AliHLTArray2.sub B h2 d).toArrayBoundsCheck)
    ∧ (WindowInv h3.toArrayBoundsCheck →
        WindowInv (AliHLTArray3.add B h3 d).toArrayBoundsCheck
        ∧ WindowInv (AliHLTArray3.sub B h3 d).toArrayBoundsCheck)
    ∧ (WindowInv h2.toArrayBoundsCheck →
        h2.toArrayBoundsCheck.IsInBounds B (i * h2.fStride) = some true →
        ∃ row, h2.index B raw1 i = some row ∧ WindowInv row.toArrayBoundsCheck)
    ∧ (WindowInv h3.toArrayBoundsCheck →
        h3.toArrayBoundsCheck.IsInBounds B (i * h3.fStrideX) = some true →
        ∃ plane, h3.index B raw2 i = some plane ∧ WindowInv plane.toArrayBoundsCheck)
    ∧ (0 < sizeofOld → 0 ≤ sizeofNew → other.fStart ≤ other.fEnd →
        (self.ReinterpretCast B other sizeofOld sizeofNew).fStart
          ≤ (self.ReinterpretCast B other sizeofOld sizeofNew).fEnd
        ∧ WindowInv (self.ReinterpretCast B other sizeofOld sizeofNew)) := by
  have move : ∀ (b : ArrayBoundsCheck) (k : Int), WindowInv b → WindowInv (b.MoveBounds B k) := by
    intro b k hb
    unfold WindowInv at *
    simp only [ArrayBoundsCheck.MoveBounds, hc, if_true]
    omega
  refine ⟨?_, ?_, ?_, ⟨?_, ?_, ?_⟩, ⟨?_, ?_, ?_, by decide⟩, ?_, ?_, ?_, ?_, ?_, ?_⟩
  · intro hx
    constructor <;>
      simp [WindowInv, AliHLTResizableArray1.ctor, AliHLTResizableArray1.Resize,
        ArrayBase1.SetSize, ArrayBoundsCheck.SetBounds, hc, hx]
  · intro hx hy
    have hxy : 0 ≤ x * y := Int.mul_nonneg hx hy
    constructor <;>
      simp [WindowInv, AliHLTResizableArray2.ctor, AliHLTResizableArray2.Resize,
        ArrayBase2.SetSize, ArrayBoundsCheck.SetBounds, hc, hxy]
  · intro hx hy hz
    have hxyz : 0 ≤ x * y * z := Int.mul_nonneg (Int.mul_nonneg hx hy) hz
    constructor <;>
      simp [WindowInv, AliHLTResizableArray3.ctor, AliHLTResizableArray3.Resize,
        ArrayBase3.SetSize, ArrayBoundsCheck.SetBounds, hc, hxyz]
  · simp [WindowInv, AliHLTFixedArray1.ctor, ArrayBase1.SetSize, ArrayBoundsCheck.SetBounds, hc]
  · simp [WindowInv, AliHLTFixedArray2.ctor, ArrayBase2.SetSize, ArrayBoundsCheck.SetBounds, hc]
  · simp [WindowInv, AliHLTFixedArray3.ctor, ArrayBase3.SetSize, ArrayBoundsCheck.SetBounds, hc]
  · simp [AliHLTResizableArray1.ctor0, ArrayBase1.SetSize, ArrayBoundsCheck.SetBounds, hc]
  · simp [AliHLTResizableArray2.ctor0, ArrayBase2.SetSize, ArrayBoundsCheck.SetBounds, hc]
  · simp [AliHLTResizableArray3.ctor0, ArrayBase3.SetSize, ArrayBoundsCheck.SetBounds, hc]
  · intro hw
    exact ⟨move _ _ hw, move _ _ hw⟩
  · intro hw
    exact ⟨move _ _ hw, move _ _ hw⟩
  · intro hw
    exact ⟨move _ _ hw, move _ _ hw⟩
  · intro hw hg
    exact ⟨_, index2_inside B raw1 h2 i hg, move _ _ hw⟩
  · intro hw hg
    exact ⟨_, index3_inside B raw2 h3 i hg, move _ _ hw⟩
  · intro hOld hNew hse
    have hle : Int.tdiv (other.fStart * sizeofNew) sizeofOld
        ≤ Int.tdiv (other.fEnd * sizeofNew) sizeofOld :=
      tdiv_mono _ _ _ hOld (Int.mul_le_mul_of_nonneg_right hse hNew)
    have hdef : self.ReinterpretCast B other sizeofOld sizeofNew
        = { fStart := Int.tdiv (other.fStart * sizeofNew) sizeofOld,
            fEnd := Int.tdiv (other.fEnd * sizeofNew) sizeofOld } := by
      simp [ArrayBoundsCheck.ReinterpretCast, hc]
    rw [hdef]
    unfold WindowInv
    simp only []
    constructor <;> omega

/-- C20 amended, checking enabled and assertions inert: the owner built with extent 4 has a
window satisfying the invariant, and so has the handle `a + 2`. -/
theorem C20_window_invariant_witness :
    checkedRelease.ENABLE_ARRAY_BOUNDS_CHECKING = true ∧ (0 : Int) ≤ 4
    ∧ WindowInv (AliHLTResizableArray1.ctor checkedRelease (fun _ => 1000)
        ⟨⟨0, 0⟩, 0, 0⟩ 4).toArrayBoundsCheck
    ∧ WindowInv (AliHLTArray1.add checkedRelease
        (AliHLTResizableArray1.ctor checkedRelease (fun _ => 1000) ⟨⟨0, 0⟩, 0, 0⟩ 4)
        2).toArrayBoundsCheck :=
  have h := C20_window_invariant checkedRelease (fun _ => 1000) ⟨4, 0, 0⟩ 1000 ⟨⟨0, 0⟩, 0, 0⟩
    (AliHLTResizableArray1.ctor checkedRelease (fun _ => 1000) ⟨⟨0, 0⟩, 0, 0⟩ 4)
    ⟨⟨0, 0⟩, 0, 0, 0⟩ ⟨⟨0, 0⟩, 0, 0, 0⟩ ⟨⟨0, 0⟩, 0, 0, 0, 0⟩ ⟨⟨0, 0⟩, 0, 0, 0, 0⟩
    ⟨0, 0⟩ ⟨0, 0⟩ 4 0 0 2 0 1 1 rfl
  ⟨rfl, by decide, (h.1 (by decide)).1, (h.2.2.2.2.2.1 (h.1 (by decide)).1).1⟩

/-! ## The two builds, sub-view windows and the addressing of owners -/

/-- C21: in a build `Bu` with bounds checking compiled out, `IsInBounds` returns true at
every integer, `SetBounds`, `MoveBounds` and `ReinterpretCast` leave the object as it was,
and every element access refers to the element at base plus the linear offset it computes
(rank-1 `[]`, rank-2 and rank-3 `()`, and `operator*`); and for any other build `Bc`, in
particular one with checking enabled and assertions live or inert, whenever that linear
offset lies in the window the handle carries, the access in `Bc` refers to the same element
as the access in `Bu`.  `operator+` and `operator-` give the same base pointer in both
builds. -/
theorem C21_unchecked_build_is_raw_array (Bu Bc : Build) (b other : ArrayBoundsCheck)
    (a1 : ArrayBase1) (a2 : ArrayBase2) (a3 : ArrayBase3)
    (x y z start endv d sizeofOld sizeofNew : Int)
    (hu : Bu.ENABLE_ARRAY_BOUNDS_CHECKING = false) :
    (b.IsInBounds Bu x = some true
      ∧ b.SetBounds Bu start endv = b
      ∧ b.MoveBounds Bu d = b
      ∧ b.ReinterpretCast Bu other sizeofOld sizeofNew = b)
    ∧ (a1.index Bu x = some (a1.fData + x)
      ∧ a2.call Bu x y = some (a2.fData + (x * a2.fStride + y))
      ∧ a3.call Bu x y z = some (a3.fData + (x * a3.fStrideX + y + a3.fStrideY + z))
      ∧ AliHLTArray1.deref Bu a1 = some a1.fData
      ∧ AliHLTArray2.deref Bu a2 = some a2.fData
      ∧ AliHLTArray3.deref Bu a3 = some a3.fData)
    ∧ (a1.fStart ≤ x ∧ x ≤ a1.fEnd → a1.index Bc x = a1.index Bu x)
    ∧ (a2.fStart ≤ x * a2.fStride + y ∧ x * a2.fStride + y ≤ a2.fEnd →
        a2.call Bc x y = a2.call Bu x y)
    ∧ (a3.fStart ≤ x * a3.fStrideX + y + a3.fStrideY + z
        ∧ x * a3.fStrideX + y + a3.fStrideY + z ≤ a3.fEnd →
        a3.call Bc x y z = a3.call Bu x y z)
    ∧ (a1.fStart ≤ 0 ∧ 0 ≤ a1.fEnd → AliHLTArray1.deref Bc a1 = AliHLTArray1.deref Bu a1)
    ∧ ((AliHLTArray1.add Bc a1 d).fData = (AliHLTArray1.add Bu a1 d).fData
      ∧ (AliHLTArray1.sub Bc a1 d).fData = (AliHLTArray1.sub Bu a1 d).fData) := by
  have i1 : a1.index Bu x = some (a1.fData + x) := by
    simp [ArrayBase1.index, hu]
  have i2 : a2.call Bu x y = some (a2.fData + (x * a2.fStride + y)) := by
    simp [ArrayBase2.call, hu]
  have i3 : a3.call Bu x y z = some (a3.fData + (x * a3.fStrideX + y + a3.fStrideY + z)) := by
    simp [ArrayBase3.call, hu]
  have i4 : AliHLTArray1.deref Bu a1 = some a1.fData := by
    simp [AliHLTArray1.deref, hu]
  refine ⟨⟨?_, ?_, ?_, ?_⟩, ⟨i1, i2, i3, i4, ?_, ?_⟩, ?_, ?_, ?_, ?_, ⟨rfl, rfl⟩⟩
  · simp [ArrayBoundsCheck.IsInBounds, hu]
  · simp [ArrayBoundsCheck.SetBounds, hu]
  · simp [ArrayBoundsCheck.MoveBounds, hu]
  · simp [ArrayBoundsCheck.ReinterpretCast, hu]
  · simp [AliHLTArray2.deref, hu]
  · simp [AliHLTArray3.deref, hu]
  · intro h
    rw [i1]
    exact index1_inside Bc a1 x (IsInBounds_inside Bc _ _ h.1 h.2)
  · intro h
    rw [i2]
    exact call2_inside Bc a2 x y (IsInBounds_inside Bc _ _ h.1 h.2)
  · intro h
    rw [i3]
    have g := IsInBounds_inside Bc a3.toArrayBoundsCheck _ h.1 h.2
    unfold ArrayBase3.call
    simp [g]
  · intro h
    rw [i4]
    have g := IsInBounds_inside Bc a1.toArrayBoundsCheck 0 h.1 h.2
    unfold AliHLTArray1.deref
    simp [g]

/-- C21 on the owner of four elements allocated at 1000 and the index 2: the build with
checking enabled and assertions inert and the build without checking both refer to the
element at 1002. -/
theorem C21_unchecked_build_is_raw_array_witness :
    unchecked.ENABLE_ARRAY_BOUNDS_CHECKING = false
    ∧ ((AliHLTResizableArray1.ctor checkedRelease (fun _ => 1000) ⟨⟨0, 0⟩, 0, 0⟩ 4).fStart ≤ 2
      ∧ 2 ≤ (AliHLTResizableArray1.ctor checkedRelease (fun _ => 1000) ⟨⟨0, 0⟩, 0, 0⟩ 4).fEnd)
    ∧ (AliHLTResizableArray1.ctor checkedRelease (fun _ => 1000) ⟨⟨0, 0⟩, 0, 0⟩ 4).index
        checkedRelease 2
      = (AliHLTResizableArray1.ctor checkedRelease (fun _ => 1000) ⟨⟨0, 0⟩, 0, 0⟩ 4).index
        unchecked 2 :=
  ⟨rfl, by decide,
    (C21_unchecked_build_is_raw_array unchecked checkedRelease ⟨0, 0⟩ ⟨0, 0⟩
      (AliHLTResizableArray1.ctor checkedRelease (fun _ => 1000) ⟨⟨0, 0⟩, 0, 0⟩ 4)
      ⟨⟨0, 0⟩, 0, 0, 0⟩ ⟨⟨0, 0⟩, 0, 0, 0, 0⟩ 2 0 0 0 0 0 1 1 rfl).2.2.1 (by decide)⟩

/-- C22: in a build with checking enabled, for a rank-2 handle `a` with window `[s, e]` and
stride `S`, an index `i` with `s <= i * S <= e` and any integer `j`: `a[i]` is a rank-1
handle on which the gate gives `j` the verdict it gives `i * S + j` on `a`, so `a[i][j]`
is accepted exactly when `s <= i * S + j <= e`, exactly when `a( i, j )` is; and when
accepted both refer to the element at offset `i * S + j` from the base of `a`.  The window
of `a[i]` is the window of `a` moved by `-(i * S)`. -/
theorem C22_subview_window_is_parent_window (B : Build) (raw : ArrayBase1) (a : ArrayBase2)
    (i j : Int) (hc : B.ENABLE_ARRAY_BOUNDS_CHECKING = true)
    (hin : a.fStart ≤ i * a.fStride ∧ i * a.fStride ≤ a.fEnd) :
    ∃ row, a.index B raw i = some row
      ∧ row.fStart = a.fStart - i * a.fStride
      ∧ row.fEnd = a.fEnd - i * a.fStride
      ∧ row.toArrayBoundsCheck.IsInBounds B j
          = a.toArrayBoundsCheck.IsInBounds B (i * a.fStride + j)
      ∧ (row.toArrayBoundsCheck.IsInBounds B j = some true
          ↔ (a.fStart ≤ i * a.fStride + j ∧ i * a.fStride + j ≤ a.fEnd))
      ∧ (a.toArrayBoundsCheck.IsInBounds B (i * a.fStride + j) = some true
          ↔ (a.fStart ≤ i * a.fStride + j ∧ i * a.fStride + j ≤ a.fEnd))
      ∧ (a.fStart ≤ i * a.fStride + j ∧ i * a.fStride + j ≤ a.fEnd →
          row.index B j = some (a.fData + (i * a.fStride + j))
          ∧ a.call B i j = some (a.fData + (i * a.fStride + j))) := by
  have hrow := index2_inside B raw a i (IsInBounds_inside B _ _ hin.1 hin.2)
  have hg : (a.toArrayBoundsCheck.MoveBounds B (-(i * a.fStride))).IsInBounds B j
      = a.toArrayBoundsCheck.IsInBounds B (i * a.fStride + j) := by
    rw [IsInBounds_MoveBounds]
    have e : j - -(i * a.fStride) = i * a.fStride + j := by ring
    rw [e]
  have hpar := IsInBounds_eq_true_iff B hc a.toArrayBoundsCheck (i * a.fStride + j)
  refine ⟨_, hrow, ?_, ?_, hg, ?_, hpar, ?_⟩
  · simp only [ArrayBoundsCheck.MoveBounds, hc, if_true]
    ring
  · simp only [ArrayBoundsCheck.MoveBounds, hc, if_true]
    ring
  · rw [hg]; exact hpar
  · intro h
    have acc := hpar.mpr h
    refine ⟨?_, call2_inside B a i j acc⟩
    rw [index1_inside B _ j (by rw [← hg] at acc; exact acc)]
    congr 1
    ring

/-- C22 on the owner of extent (3, 4) allocated at 1000, checking enabled and assertions
inert, with `i = 1` and `j = -2`: the row `a[1]` accepts index -2, and `a[1][-2]` is the
element at offset 2. -/
theorem C22_subview_window_is_parent_window_witness :
    checkedRelease.ENABLE_ARRAY_BOUNDS_CHECKING = true
    ∧ ((AliHLTResizableArray2.ctor checkedRelease (fun _ => 1000) ⟨⟨0, 0⟩, 0, 0, 0⟩ 3 4).fStart
        ≤ 1 * (AliHLTResizableArray2.ctor checkedRelease (fun _ => 1000)
            ⟨⟨0, 0⟩, 0, 0, 0⟩ 3 4).fStride
      ∧ 1 * (AliHLTResizableArray2.ctor checkedRelease (fun _ => 1000)
            ⟨⟨0, 0⟩, 0, 0, 0⟩ 3 4).fStride
        ≤ (AliHLTResizableArray2.ctor checkedRelease (fun _ => 1000)
            ⟨⟨0, 0⟩, 0, 0, 0⟩ 3 4).fEnd)
    ∧ ∃ row, (AliHLTResizableArray2.ctor checkedRelease (fun _ => 1000)
          ⟨⟨0, 0⟩, 0, 0, 0⟩ 3 4).index checkedRelease ⟨⟨0, 0⟩, 0, 0⟩ 1 = some row
        ∧ row.toArrayBoundsCheck.IsInBounds checkedRelease (-2)
          = (AliHLTResizableArray2.ctor checkedRelease (fun _ => 1000)
              ⟨⟨0, 0⟩, 0, 0, 0⟩ 3 4).toArrayBoundsCheck.IsInBounds checkedRelease
              (1 * (AliHLTResizableArray2.ctor checkedRelease (fun _ => 1000)
                ⟨⟨0, 0⟩, 0, 0, 0⟩ 3 4).fStride + -2) :=
  ⟨rfl, by decide,
    (C22_subview_window_is_parent_window checkedRelease ⟨⟨0, 0⟩, 0, 0⟩
      (AliHLTResizableArray2.ctor checkedRelease (fun _ => 1000) ⟨⟨0, 0⟩, 0, 0, 0⟩ 3 4)
      1 (-2) rfl (by decide)).elim fun row h => ⟨row, h.1, h.2.2.2.1⟩⟩

/-- C23: on the rank-3 array built by `AliHLTResizableArray( 2, 3, 4 )`, in every build, the
sub-view `a[1]` is a rank-2 handle with stride 4 whose `Size()` is 0, not `3 * 4 = 12`:
`operator[]` sets the base pointer, the stride and the window of the handle it returns and
leaves `fSize` at the 0 the rank-2 constructor gave it. -/
theorem C23_subview_size_is_zero (B : Build) (Alloc : Int → Ptr) (raw3 : ArrayBase3)
    (raw2 : ArrayBase2) :
    ((AliHLTResizableArray3.ctor B Alloc raw3 2 3 4).index B raw2 1).map AliHLTArray2.Size
        = some 0
    ∧ ((AliHLTResizableArray3.ctor B Alloc raw3 2 3 4).index B raw2 1).map
        (fun plane => plane.fStride) = some 4
    ∧ ((AliHLTResizableArray3.ctor B Alloc raw3 2 3 4).index B raw2 1).map
        (fun plane => plane.fData) = some (Alloc 24 + 12)
    ∧ ((AliHLTResizableArray3.ctor B Alloc raw3 2 3 4).index B raw2 1).map AliHLTArray2.Size
        ≠ some (3 * 4) := by
  have hg : (AliHLTResizableArray3.ctor B Alloc raw3 2 3 4).toArrayBoundsCheck.IsInBounds B
      (1 * (AliHLTResizableArray3.ctor B Alloc raw3 2 3 4).fStrideX) = some true := by
    have e : (1 : Int) * (AliHLTResizableArray3.ctor B Alloc raw3 2 3 4).fStrideX = 12 := by
      simp [AliHLTResizableArray3.ctor, ArrayBase3.SetSize]
    rw [e]
    exact resizable3_accepts B Alloc raw3 2 3 4 12 (by decide) (by decide)
  rw [index3_inside B raw2 _ 1 hg]
  simp [AliHLTArray2.Size, AliHLTResizableArray3.ctor, ArrayBase3.SetSize]

/-- Two valid index pairs with the same row-major offset are the same pair. -/
theorem offset2_injective (Y i j i2 j2 : Int)
    (hj0 : 0 ≤ j) (hj : j < Y) (hj20 : 0 ≤ j2) (hj2 : j2 < Y)
    (h : i * Y + j = i2 * Y + j2) : i = i2 ∧ j = j2 := by
  have hY : 0 ≤ Y := by omega
  have hi : i = i2 := by
    rcases Int.lt_trichotomy i i2 with hlt | heq | hgt
    · have h1 : (i + 1) * Y ≤ i2 * Y := Int.mul_le_mul_of_nonneg_right (by omega) hY
      have h2 : (i + 1) * Y = i * Y + Y := by ring
      omega
    · exact heq
    · have h1 : (i2 + 1) * Y ≤ i * Y := Int.mul_le_mul_of_nonneg_right (by omega) hY
      have h2 : (i2 + 1) * Y = i2 * Y + Y := by ring
      omega
  subst hi
  exact ⟨rfl, by omega⟩

/-- C24: for the rank-2 array built by `AliHLTResizableArray( X, Y )`, in every build: a
valid index pair `(i, j)` is sent by the call operator to the element at offset
`i * fStride + j = i * Y + j`, which lies in `[0, X * Y)` and is accepted by the gate (so the
access is not redirected); two valid pairs that address the same element are equal; and for
`X, Y >= 1` every element of the buffer, at an offset `k` of `[0, X * Y)`, is addressed by
some valid pair.  With checking enabled the window is `[0, X * Y - 1]`. -/
theorem C24_rank2_call_is_bijection (B : Build) (Alloc : Int → Ptr) (raw : ArrayBase2)
    (X Y i j i2 j2 k : Int) :
    (0 ≤ i ∧ i < X ∧ 0 ≤ j ∧ j < Y →
      (AliHLTResizableArray2.ctor B Alloc raw X Y).call B i j
          = some (Alloc (X * Y) + (i * Y + j))
      ∧ i * (AliHLTResizableArray2.ctor B Alloc raw X Y).fStride + j = i * Y + j
      ∧ 0 ≤ i * Y + j ∧ i * Y + j < X * Y
      ∧ (AliHLTResizableArray2.ctor B Alloc raw X Y).toArrayBoundsCheck.IsInBounds B
          (i * (AliHLTResizableArray2.ctor B Alloc raw X Y).fStride + j) = some true)
    ∧ (0 ≤ i ∧ i < X ∧ 0 ≤ j ∧ j < Y → 0 ≤ i2 ∧ i2 < X ∧ 0 ≤ j2 ∧ j2 < Y →
        (AliHLTResizableArray2.ctor B Alloc raw X Y).call B i j
          = (AliHLTResizableArray2.ctor B Alloc raw X Y).call B i2 j2 →
        i = i2 ∧ j = j2)
    ∧ (1 ≤ X → 1 ≤ Y → 0 ≤ k → k < X * Y →
        ∃ a b : Int, (0 ≤ a ∧ a < X ∧ 0 ≤ b ∧ b < Y)
          ∧ (AliHLTResizableArray2.ctor B Alloc raw X Y).call B a b
            = some (Alloc (X * Y) + k))
    ∧ (B.ENABLE_ARRAY_BOUNDS_CHECKING = true →
        (AliHLTResizableArray2.ctor B Alloc raw X Y).toArrayBoundsCheck
          = { fStart := 0, fEnd := X * Y - 1 }) := by
  have hS : (AliHLTResizableArray2.ctor B Alloc raw X Y).fStride = Y := by
    simp [AliHLTResizableArray2.ctor, ArrayBase2.SetSize]
  have hD : (AliHLTResizableArray2.ctor B Alloc raw X Y).fData = Alloc (X * Y) := by
    simp [AliHLTResizableArray2.ctor, ArrayBase2.SetSize]
  have valid : ∀ a b : Int, 0 ≤ a ∧ a < X ∧ 0 ≤ b ∧ b < Y →
      (AliHLTResizableArray2.ctor B Alloc raw X Y).call B a b
          = some (Alloc (X * Y) + (a * Y + b))
      ∧ 0 ≤ a * Y + b ∧ a * Y + b < X * Y
      ∧ (AliHLTResizableArray2.ctor B Alloc raw X Y).toArrayBoundsCheck.IsInBounds B
          (a * Y + b) = some true := by
    intro a b hv
    obtain ⟨_, _, r3, r4⟩ := offset2_range X Y a b hv.1 hv.2.1 hv.2.2.1 hv.2.2.2
    have g := resizable2_accepts B Alloc raw X Y (a * Y + b) r3 r4
    have hcall := call2_inside B (AliHLTResizableArray2.ctor B Alloc raw X Y) a b
      (by rw [hS]; exact g)
    rw [hS, hD] at hcall
    exact ⟨hcall, r3, r4, g⟩
  refine ⟨?_, ?_, ?_, ?_⟩
  · intro hv
    obtain ⟨h1, h2, h3, h4⟩ := valid i j hv
    exact ⟨h1, by rw [hS], h2, h3, by rw [hS]; exact h4⟩
  · intro hv hv2 heq
    rw [(valid i j hv).1, (valid i2 j2 hv2).1] at heq
    have e : Alloc (X * Y) + (i * Y + j) = Alloc (X * Y) + (i2 * Y + j2) := Option.some.inj heq
    exact offset2_injective Y i j i2 j2 hv.2.2.1 hv.2.2.2 hv2.2.2.1 hv2.2.2.2
      (Int.add_left_cancel e)
  · intro _ hY hk0 hk
    have hYpos : 0 < Y := by omega
    have hv : 0 ≤ k / Y ∧ k / Y < X ∧ 0 ≤ k % Y ∧ k % Y < Y :=
      ⟨Int.ediv_nonneg hk0 (by omega), Int.ediv_lt_of_lt_mul hYpos hk,
        Int.emod_nonneg k (by omega), Int.emod_lt_of_pos k hYpos⟩
    refine ⟨k / Y, k % Y, hv, ?_⟩
    rw [(valid _ _ hv).1, Int.ediv_add_emod']
  · intro hc
    simp [AliHLTResizableArray2.ctor, ArrayBase2.SetSize, ArrayBoundsCheck.SetBounds, hc]

/-- C24 at extent (3, 4), checking enabled and assertions inert: the pair (1, 2) is
addressed at offset 6, and the element at offset 11 is addressed by some valid pair. -/
theorem C24_rank2_call_is_bijection_witness :
    ((0 : Int) ≤ 1 ∧ (1 : Int) < 3 ∧ (0 : Int) ≤ 2 ∧ (2 : Int) < 4)
    ∧ (AliHLTResizableArray2.ctor checkedRelease (fun _ => 1000) ⟨⟨0, 0⟩, 0, 0, 0⟩ 3 4).call
        checkedRelease 1 2 = some (1000 + (1 * 4 + 2))
    ∧ ((1 : Int) ≤ 3 ∧ (1 : Int) ≤ 4 ∧ (0 : Int) ≤ 11 ∧ (11 : Int) < 3 * 4)
    ∧ ∃ a b : Int, (0 ≤ a ∧ a < 3 ∧ 0 ≤ b ∧ b < 4)
        ∧ (AliHLTResizableArray2.ctor checkedRelease (fun _ => 1000)
            ⟨⟨0, 0⟩, 0, 0, 0⟩ 3 4).call checkedRelease a b = some (1000 + 11) :=
  have h := C24_rank2_call_is_bijection checkedRelease (fun _ => 1000) ⟨⟨0, 0⟩, 0, 0, 0⟩
    3 4 1 2 0 0 11
  ⟨by decide, (h.1 (by decide)).1, by decide,
    h.2.2.1 (by decide) (by decide) (by decide) (by decide)⟩

/-- C25: the call operator of a rank-3 array computes `x * fStrideX + y + fStrideY + z`.  On
the array built by `AliHLTResizableArray( 2, 3, 4 )`, in every build, the distinct valid
triples (0, 0, 1) and (0, 1, 0) both address the element at offset 5.  On the array built
by `AliHLTResizableArray( 2, 2, 2 )`, with checking enabled and assertions inert, the valid
triple (1, 1, 1) has the offset `4 + 1 + 2 + 1 = 8`, outside the window `[0, 7]`; the gate
rejects it and the access is redirected to the element at offset 0. -/
theorem C25_rank3_call_not_injective (B : Build) (Alloc : Int → Ptr) (raw3 : ArrayBase3) :
    (AliHLTResizableArray3.ctor B Alloc raw3 2 3 4).call B 0 0 1 = some (Alloc 24 + 5)
    ∧ (AliHLTResizableArray3.ctor B Alloc raw3 2 3 4).call B 0 1 0 = some (Alloc 24 + 5)
    ∧ (AliHLTResizableArray3.ctor B Alloc raw3 2 3 4).call B 0 0 1
        = (AliHLTResizableArray3.ctor B Alloc raw3 2 3 4).call B 0 1 0
    ∧ (AliHLTResizableArray3.ctor checkedRelease Alloc raw3 2 2 2).toArrayBoundsCheck
        = { fStart := 0, fEnd := 7 }
    ∧ (AliHLTResizableArray3.ctor checkedRelease Alloc raw3 2 2
          2).toArrayBoundsCheck.IsInBounds checkedRelease
        (1 * (AliHLTResizableArray3.ctor checkedRelease Alloc raw3 2 2 2).fStrideX + 1
          + (AliHLTResizableArray3.ctor checkedRelease Alloc raw3 2 2 2).fStrideY + 1)
        = some false
    ∧ (AliHLTResizableArray3.ctor checkedRelease Alloc raw3 2 2 2).call checkedRelease 1 1 1
        = some (Alloc 8 + 0) := by
  have h1 : (AliHLTResizableArray3.ctor B Alloc raw3 2 3 4).call B 0 0 1
      = some (Alloc 24 + 5) := by
    cases B with
    | mk c n =>
      cases c <;> cases n <;>
        simp [AliHLTResizableArray3.ctor, ArrayBase3.SetSize, ArrayBase3.ctor, ArrayBase3.call,
          ArrayBoundsCheck.SetBounds, ArrayBoundsCheck.IsInBounds]
  have h2 : (AliHLTResizableArray3.ctor B Alloc raw3 2 3 4).call B 0 1 0
      = some (Alloc 24 + 5) := by
    cases B with
    | mk c n =>
      cases c <;> cases n <;>
        simp [AliHLTResizableArray3.ctor, ArrayBase3.SetSize, ArrayBase3.ctor, ArrayBase3.call,
          ArrayBoundsCheck.SetBounds, ArrayBoundsCheck.IsInBounds]
  refine ⟨h1, h2, h1.trans h2.symm, ?_, ?_, ?_⟩
  · simp [AliHLTResizableArray3.ctor, ArrayBase3.SetSize, ArrayBoundsCheck.SetBounds,
      checkedRelease]
  · simp [AliHLTResizableArray3.ctor, ArrayBase3.SetSize, ArrayBoundsCheck.SetBounds,
      ArrayBoundsCheck.IsInBounds, checkedRelease]
  · simp [AliHLTResizableArray3.ctor, ArrayBase3.SetSize, ArrayBase3.ctor, ArrayBase3.call,
      ArrayBoundsCheck.SetBounds, ArrayBoundsCheck.IsInBounds, checkedRelease]

end AliHLT
